import Mathlib

/-!
# ErikKernel — verification of the spec's claims against the source

A shallow embedding of the ErikKernel subsystems the claims speak about:

* the page-frame allocator of `src/src/memory.c` (bitmap over physical
  frames, `fill_bitmap_region`, `set_frame_lock`, `find_free_frames`,
  `page_frame_allocator_init`);
* the doubly-linked list of `list.c` (`src/unnamed/part_000`), both at the
  node/pointer level (for the representation-invariant claim) and at the
  value-sequence level (for its kernel clients);
* the RAMFS/VFS of `src/src/fs.c` with the USTAR ingest of `load_initrd`;
* the ELF loader of `src/unnamed/part_001`;
* the task and syscall layer of `src/src/arch/x86_64/task.c` and
  `src/src/arch/x86_64/syscall.c`.

C machine integers are modelled as `Nat` with explicit truncation where the
source can overflow; fallible C functions return `Int` error codes exactly as
the source does, or `Option` where the source's failure is undefined
behaviour rather than an error code.  Memory the C code addresses through
pointers is modelled by explicit stores (functions or lists); each definition
carries the source file and lines it is translated from.
-/

namespace ErikKernel

set_option maxRecDepth 40000

/-! ## Page-frame allocator — `src/src/memory.c`

The C `memory` struct is `{uintptr_t base; size_t length; uint8_t *bitmap}`.
The `bitmap` pointer serves both as the physical address of the bitmap's own
storage (re-locked at the end of `page_frame_allocator_init`) and as the byte
array the bit operations address; the model separates the two into
`bitmapAddr` and `bitmapData`. -/

/-- One entry of the boot memory map (`erikboot.h`): only `Type`,
`PhysicalStart` and `NumberOfPages` are consumed by `memory.c`. -/
structure MMapEntry where
  typ : Nat
  physicalStart : Nat
  numberOfPages : Nat
deriving Repr, DecidableEq

/-- `memory` of `src/src/memory.c` line 5 (`_memory`): `base`, `length` in
bytes, the bitmap's own physical address, and the bitmap's byte contents
(each byte kept `< 256` by construction). -/
structure memory where
  base : Nat
  length : Nat
  bitmapAddr : Nat
  bitmapData : Nat → Nat

/-- `EFI_CONVENTIONAL_MEMORY` (`memory.h`). -/
def EFI_CONVENTIONAL_MEMORY : Nat := 7

/-- `PAGE_SIZE` (`memory.h`). -/
def PAGE_SIZE : Nat := 4096

/-- Write one byte of a byte store. -/
def updByte (bm : Nat → Nat) (i v : Nat) : Nat → Nat :=
  fun j => if j = i then v else bm j

/-- `memset(&bitmap[start], v, num)` as used on the bitmap's bytes
(`memory.c` lines 7-12 and its callers). -/
def memsetBytes (bm : Nat → Nat) (start v : Nat) : Nat → (Nat → Nat)
  | 0 => bm
  | n + 1 => memsetBytes (updByte bm start v) (start + 1) v n

/-- Bitwise complement of a byte value (`~mask` truncated to `uint8_t` by the
compound assignment in the source). -/
def not8 (m : Nat) : Nat := m ^^^ 0xFF

/-- `fill_bitmap_region` — `src/src/memory.c` lines 14-43, translated
clause for clause.  The four index computations are C `unsigned int`
arithmetic; for every call the kernel makes the subtractions do not
underflow, so `Nat` subtraction coincides with the C values. -/
def fill_bitmap_region (bitmap : Nat → Nat) (start_bit num_bits : Nat)
    (value : Bool) : Nat → Nat :=
  let start_offset := start_bit % 8
  let end_offset := (start_bit + num_bits) % 8
  let first_full_byte := start_bit / 8 + (if start_offset ≠ 0 then 1 else 0)
  let last_full_byte :=
    (start_bit + num_bits) / 8 - (if end_offset ≠ 0 then 0 else 1)
  let bm1 :=
    if start_offset ≠ 0 then
      let mask0 := (0xFF <<< start_offset) &&& 0xFF
      let mask :=
        if first_full_byte - 1 = last_full_byte ∧ end_offset ≠ 0 then
          mask0 &&& (0xFF >>> (8 - end_offset))
        else mask0
      if value then
        updByte bitmap (first_full_byte - 1)
          (bitmap (first_full_byte - 1) ||| mask)
      else
        updByte bitmap (first_full_byte - 1)
          (bitmap (first_full_byte - 1) &&& not8 mask)
    else bitmap
  let bm2 := memsetBytes bm1 first_full_byte (if value then 0xFF else 0x00)
    (last_full_byte - first_full_byte + 1)
  if end_offset ≠ 0 ∧ last_full_byte + 1 > first_full_byte then
    let mask := (0xFF >>> (8 - end_offset)) &&& 0xFF
    if value then
      updByte bm2 (last_full_byte + 1) (bm2 (last_full_byte + 1) ||| mask)
    else
      updByte bm2 (last_full_byte + 1) (bm2 (last_full_byte + 1) &&& not8 mask)
  else bm2

/-- `set_frame_lock` — `src/src/memory.c` lines 89-96.  Returns the C
`intptr_t` result (−1 out of range, else `frame`) together with the updated
allocator.  The range check uses `>` on the upper bound exactly as the
source does. -/
def set_frame_lock (m : memory) (frame n : Nat) (lock : Bool) :
    Int × memory :=
  if frame < m.base ∨ frame > m.base + m.length then (-1, m)
  else
    ((frame : Int),
     { m with
       bitmapData :=
         fill_bitmap_region m.bitmapData ((frame - m.base) / 4096) n lock })

/-- The scan loop of `find_free_frames` — `src/src/memory.c` lines 73-85:
`i` is the absolute frame index, `count` the current run of clear bits.
Note the source's indexing: the byte index is relative
(`(i - base/4096) / 8`) while the bit index is absolute (`i % 8`), and the
loop bound is `i < length / 4096` (not `(base + length) / 4096`).
`fuel` only bounds the recursion (structurally, so the definition
evaluates); any `fuel ≥ length/4096 - i` gives the loop's exact
behaviour, and `find_free_frames` passes such a bound. -/
def ff_scan (m : memory) (n : Nat) : Nat → Nat → Nat → Int
  | 0, _, _ => -1
  | fuel + 1, i, count =>
    if i < m.length / 4096 then
      let byte_index := (i - m.base / 4096) / 8
      let bit_index := i % 8
      let count' := if m.bitmapData byte_index &&& (1 <<< bit_index) = 0
        then count + 1 else 0
      if count' = n then ((i + 1 - n) * 4096 : Nat)
      else ff_scan m n fuel (i + 1) count'
    else -1

/-- `find_free_frames` — `src/src/memory.c` lines 71-87. -/
def find_free_frames (m : memory) (n : Nat) : Int :=
  ff_scan m n (m.length / 4096) (m.base / 4096) 0

/-- `UINTPTR_MAX` on the 64-bit targets. -/
def UINTPTR_MAX : Nat := 2 ^ 64 - 1

/-- `memory_get_size` — `src/src/memory.c` lines 45-69: `base` is the least
`PhysicalStart`, `length` the greatest region end minus `base`, and the
bitmap pointer is the start of the first CONVENTIONAL region.  On an empty
map the function returns early with the initial `{UINTPTR_MAX, 0}`. -/
def memory_get_size (mmap : List MMapEntry) : memory :=
  let m0 : memory :=
    { base := UINTPTR_MAX, length := 0, bitmapAddr := 0, bitmapData := fun _ => 0 }
  if mmap = [] then m0
  else
    let m1 := mmap.foldl
      (fun m e =>
        let m :=
          if e.typ = EFI_CONVENTIONAL_MEMORY ∧ m.bitmapAddr = 0 then
            { m with bitmapAddr := e.physicalStart }
          else m
        let m := if e.physicalStart < m.base then { m with base := e.physicalStart } else m
        if e.physicalStart + e.numberOfPages * 4096 > m.length then
          { m with length := e.physicalStart + e.numberOfPages * 4096 }
        else m)
      m0
    { m1 with length := m1.length - m1.base }

/-- `page_frame_allocator_init` — `src/src/memory.c` lines 98-123.  `none`
models the "Could not initialize pfa!" halt loop. -/
def page_frame_allocator_init (mmap : List MMapEntry) : Option memory :=
  let m := memory_get_size mmap
  if m.bitmapAddr = 0 then none
  else
    let bitmap_length := m.length / 4096 / 8
    let m := { m with bitmapData := memsetBytes m.bitmapData 0 0xFF bitmap_length }
    let m := mmap.foldl
      (fun m e =>
        if e.typ = EFI_CONVENTIONAL_MEMORY then
          (set_frame_lock m e.physicalStart e.numberOfPages false).2
        else m)
      m
    some (set_frame_lock m m.bitmapAddr (bitmap_length / 4096 + 1) true).2

/-- The bitmap bit of the relative frame `r`, addressed the way
`set_frame_lock`/`fill_bitmap_region` address it: bit `r % 8` of byte
`r / 8`. -/
def frameBit (m : memory) (r : Nat) : Bool :=
  (m.bitmapData (r / 8)).testBit (r % 8)

/-- The bitmap length `page_frame_allocator_init` computes
(`memory.c` line 108). -/
def pfa_bitmap_length (m : memory) : Nat := m.length / 4096 / 8

/-! ### Scenario A of the spec (§8) — claim C6

Memory map `[{type=7, start=0x1000, pages=256}]`, no initrd. -/

/-- The boot memory map of scenario A. -/
def mmapA : List MMapEntry := [⟨7, 0x1000, 256⟩]

/-- The allocator state after `page_frame_allocator_init` on scenario A
(the init succeeds, so `getD` never takes the default). -/
def memA : memory :=
  (page_frame_allocator_init mmapA).getD
    { base := 0, length := 0, bitmapAddr := 0, bitmapData := fun _ => 0 }

/-! ### `find_free_frames` against the spec's description — claim C7 -/

/-- The spec's notion of a free run for `find_free(n)`: `n` consecutive
frames starting at relative frame `j`, all within the managed range, all
with clear bitmap bits (bitmap bits addressed as `set_frame_lock` addresses
them). -/
def runFree (m : memory) (n j : Nat) : Prop :=
  j + n ≤ m.length / 4096 ∧ ∀ k < n, frameBit m (j + k) = false

instance (m : memory) (n j : Nat) : Decidable (runFree m n j) := by
  unfold runFree; infer_instance

/-- The allocator state refuting C7: `base = 0x1000`, two frames, both
free.  The managed range `[base, base + length)` holds the two frames at
`0x1000` and `0x2000`, yet the scan loop runs `i` over
`[base/4096, length/4096) = {1}` and never sees the second frame. -/
def memC7 : memory :=
  { base := 0x1000, length := 0x2000, bitmapAddr := 0, bitmapData := fun _ => 0 }

/-- A set bit means a non-zero `&` with the scanned mask. -/
lemma and_shift_eq_zero_iff (x b : Nat) :
    (x &&& (1 <<< b) = 0) ↔ x.testBit b = false := by
  rw [Nat.one_shiftLeft, Nat.and_two_pow]
  cases h : x.testBit b
  · simp
  · simp [(Nat.two_pow_pos b).ne']

/-- One unfolding of the scan loop while `i` is in range. -/
lemma ff_scan_step (m : memory) (n fuel i count : Nat)
    (h : i < m.length / 4096) :
    ff_scan m n (fuel + 1) i count =
      if m.bitmapData ((i - m.base / 4096) / 8) &&& (1 <<< (i % 8)) = 0 then
        if count + 1 = n then (((i + 1 - n) * 4096 : Nat) : Int)
        else ff_scan m n fuel (i + 1) (count + 1)
      else
        if 0 = n then (((i + 1 - n) * 4096 : Nat) : Int)
        else ff_scan m n fuel (i + 1) 0 := by
  rw [ff_scan, if_pos h]
  by_cases hc : m.bitmapData ((i - m.base / 4096) / 8) &&& (1 <<< (i % 8)) = 0 <;>
    simp [hc]

/-- The scan returns −1 once `i` leaves the range. -/
lemma ff_scan_stop (m : memory) (n fuel i count : Nat)
    (h : ¬ i < m.length / 4096) : ff_scan m n (fuel + 1) i count = -1 := by
  rw [ff_scan, if_neg h]

/-- Characterisation of the scan loop for allocator states with `base = 0`
(where the loop's relative byte index and absolute bit index agree with
`set_frame_lock`'s bit addressing, and the scanned range `[0, length)`
covers the whole managed range).  The six hypotheses are the loop
invariants: `count` counts the clear frames ending just before `i`, no free
run ends before `i`, and the frame just before the current run (if any) is
set. -/
lemma ff_scan_char (m : memory) (hb : m.base = 0) (n : Nat) (hn : 1 ≤ n) :
    ∀ fuel i count, m.length / 4096 - i ≤ fuel →
      count ≤ i →
      (∀ k, i - count ≤ k → k < i → frameBit m k = false) →
      (∀ j, j + n ≤ i → ¬ (∀ k < n, frameBit m (j + k) = false)) →
      (count = i ∨ frameBit m (i - count - 1) = true) →
      count < n →
      ((ff_scan m n fuel i count = -1 → ∀ j, ¬ runFree m n j) ∧
        (ff_scan m n fuel i count ≠ -1 →
          ∃ j, ff_scan m n fuel i count = ((j * 4096 : Nat) : Int) ∧
            runFree m n j ∧ ∀ j' < j, ¬ runFree m n j')) := by
  intro fuel
  induction fuel with
  | zero =>
    intro i count hfuel _ _ hnorun _ _
    have hstop : ff_scan m n 0 i count = -1 := rfl
    refine ⟨fun _ j hj => ?_, fun h => absurd hstop h⟩
    obtain ⟨hj1, hj2⟩ := hj
    exact hnorun j (by omega) hj2
  | succ fuel ih =>
    intro i count hfuel hci hclear hnorun hedge hcn
    by_cases hlt : i < m.length / 4096
    case neg =>
      have hstop : ff_scan m n (fuel + 1) i count = -1 :=
        ff_scan_stop m n fuel i count hlt
      rw [hstop]
      refine ⟨fun _ j hj => ?_, fun h => absurd rfl h⟩
      obtain ⟨hj1, hj2⟩ := hj
      exact hnorun j (by omega) hj2
    case pos =>
    rw [ff_scan_step m n fuel i count hlt]
    have hbyte : (i - m.base / 4096) / 8 = i / 8 := by rw [hb]; norm_num
    by_cases hbit : m.bitmapData ((i - m.base / 4096) / 8) &&& (1 <<< (i % 8)) = 0
    · -- the bitmap bit of frame i is clear
      have hclr : frameBit m i = false := by
        have := (and_shift_eq_zero_iff (m.bitmapData (i / 8)) (i % 8)).mp
          (by rwa [hbyte] at hbit)
        simpa [frameBit] using this
      rw [if_pos hbit]
      by_cases hret : count + 1 = n
      · -- a run of n clear frames ends at i: return its start
        rw [if_pos hret]
        refine ⟨fun hcontr => absurd hcontr (by omega), fun _ => ⟨i + 1 - n, rfl, ?_, ?_⟩⟩
        · refine ⟨by omega, fun k hk => ?_⟩
          by_cases hlast : i + 1 - n + k = i
          · rwa [hlast]
          · exact hclear _ (by omega) (by omega)
        · intro j' hj' hrun
          obtain ⟨hr1, hr2⟩ := hrun
          exact hnorun j' (by omega) hr2
      · -- the run is still shorter than n: continue at i + 1
        rw [if_neg hret]
        refine ih (i + 1) (count + 1) (by omega) (by omega) ?_ ?_ ?_ (by omega)
        · intro k hk1 hk2
          by_cases hki : k = i
          · rwa [hki]
          · exact hclear k (by omega) (by omega)
        · intro j hj hrun
          rcases Nat.lt_or_ge (j + n) (i + 1) with hlt' | hge
          · exact hnorun j (by omega) hrun
          · -- j + n = i + 1 and the run would cover the set frame i - count - 1
            have hji : j + n = i + 1 := by omega
            rcases hedge with hcount | hset
            · omega
            · have hkrange : i - count - 1 - j < n := by omega
              have := hrun _ hkrange
              rw [show j + (i - count - 1 - j) = i - count - 1 by omega] at this
              rw [hset] at this
              exact absurd this (by decide)
        · rcases hedge with hcount | hset
          · exact Or.inl (by omega)
          · exact Or.inr (by
              rw [show i + 1 - (count + 1) - 1 = i - count - 1 by omega]
              exact hset)
      -- end clear branch
    · -- the bitmap bit of frame i is set: the run resets
      have hset : frameBit m i = true := by
        have : ¬ (m.bitmapData (i / 8)).testBit (i % 8) = false := by
          rw [← and_shift_eq_zero_iff]
          rwa [hbyte] at hbit
        simpa [frameBit] using eq_true_of_ne_false this
      rw [if_neg hbit, if_neg (by omega : ¬ 0 = n)]
      refine ih (i + 1) 0 (by omega) (by omega) (fun k hk1 hk2 => by omega) ?_
        (Or.inr (by simpa using hset)) (by omega)
      intro j hj hrun
      rcases Nat.lt_or_ge (j + n) (i + 1) with hlt' | hge
      · exact hnorun j (by omega) hrun
      · have hji : j + n = i + 1 := by omega
        have := hrun (n - 1) (by omega)
        rw [show j + (n - 1) = i by omega, hset] at this
        exact absurd this (by decide)

/-- C6 (counterexample).  After `page_frame_allocator_init` on the boot
memory map `[{type=7, start=0x1000, pages=256}]` the bitmap is 32 bytes
long, but bit 8 is also set — the claim's "every other bit of the bitmap is
clear" fails at bit 8: re-locking the bitmap's single frame goes through
`fill_bitmap_region(bitmap, 0, 1, true)`, whose full-byte `memset` covers
the whole first byte and whose end-fix then sets one bit of the next
byte. -/
theorem pfa_scenarioA_bit8_set :
    frameBit memA 8 = true ∧ pfa_bitmap_length memA = 32 := by decide

/-- C6 (amended).  On scenario A's memory map the init succeeds, the bitmap
is `256/8 = 32` bytes long, and exactly bits 0 through 8 are set: the
`fill_bitmap_region(bitmap, 0, 1, true)` call that re-locks the bitmap's
frame fills the whole first byte (bits 0-7) and spills bit 8 into the
second byte; all other bits are clear. -/
theorem pfa_scenarioA_exact_bits :
    (page_frame_allocator_init mmapA).isSome = true ∧
    pfa_bitmap_length memA = 32 ∧
    (∀ r : Fin 256, frameBit memA r.val = decide (r.val ≤ 8)) :=
  ⟨by decide, by decide, by decide⟩

/-- C7 (counterexample).  On `memC7` (base `0x1000`, two frames, bitmap all
clear) a run of two free frames exists inside `[base, base + length)` and
the claim demands its address `0x1000`, but `find_free_frames` returns the
none sentinel −1: its loop bound is `i < length / 4096`, so it scans only
the frames whose absolute addresses lie below `length`. -/
theorem find_free_frames_misses_last_frame :
    find_free_frames memC7 2 = -1 ∧
    frameBit memC7 0 = false ∧ frameBit memC7 1 = false ∧
    memC7.base + 2 * 4096 ≤ memC7.base + memC7.length := by decide

/-- C7 (amended).  For allocator states with `base = 0` — where the scanned
range `[base, length)` coincides with `[base, base + length)` and the
loop's bit addressing agrees with `set_frame_lock`'s — `find_free_frames n`
(for `n ≥ 1`) returns −1 exactly when no run of `n` consecutive clear
frames exists, and otherwise returns the physical address of the
lowest-address such run. -/
theorem find_free_frames_correct_base_zero (m : memory) (hb : m.base = 0)
    (n : Nat) (hn : 1 ≤ n) :
    (find_free_frames m n = -1 → ∀ j, ¬ runFree m n j) ∧
    (find_free_frames m n ≠ -1 →
      ∃ j, find_free_frames m n = ((j * 4096 : Nat) : Int) ∧ runFree m n j ∧
        ∀ j' < j, ¬ runFree m n j') := by
  have h := ff_scan_char m hb n hn (m.length / 4096) 0 0 (by omega) (by omega)
    (fun k hk1 hk2 => absurd hk2 (by omega))
    (fun j hj => absurd hj (by omega)) (Or.inl rfl) (by omega)
  have hstart : m.base / 4096 = 0 := by rw [hb]
  unfold find_free_frames
  rw [hstart]
  exact h

/-- An eight-frame, all-free allocator at base 0 for the C7 witness. -/
def memW : memory :=
  { base := 0, length := 8 * 4096, bitmapAddr := 0, bitmapData := fun _ => 0 }

/-- C7 (witness): the amended theorem applied at a concrete allocator. -/
theorem find_free_frames_correct_base_zero_witness :
    (find_free_frames memW 1 = -1 → ∀ j, ¬ runFree memW 1 j) ∧
    (find_free_frames memW 1 ≠ -1 →
      ∃ j, find_free_frames memW 1 = ((j * 4096 : Nat) : Int) ∧
        runFree memW 1 j ∧ ∀ j' < j, ¬ runFree memW 1 j') :=
  find_free_frames_correct_base_zero memW rfl 1 (by decide)

/-! ## Doubly-linked list — `list.c` (`src/unnamed/part_000`)

Two views of `struct list`.  The node/pointer view below is the one the
representation-invariant claim (C10) is about: nodes live in an explicit
heap addressed by numeric pointers, and each operation manipulates the
`prev`/`next` pointers exactly as the source does.  The kernel's clients
(task queue, thread lists, IPC argument stacks) are modelled further down
with the value-sequence view `CListM`, which carries the sequence of stored
values together with the `length` field the source maintains separately —
separately, because `list_delete` never decrements `length`. -/

/-- `struct node` of `list.h`: `prev`/`next` pointers (`none` = NULL) and
the stored `value` pointer, modelled as a number. -/
structure CNode where
  prev : Option Nat
  next : Option Nat
  value : Nat
deriving Repr, DecidableEq

/-- The node heap: numeric pointers to nodes, `none` = unallocated. -/
def NodeHeap := Nat → Option CNode

/-- Store a node (or free it with `none`) at pointer `i`. -/
def NodeHeap.set (h : NodeHeap) (i : Nat) (nd : Option CNode) : NodeHeap :=
  fun j => if j = i then nd else h j

/-- `struct list` of `list.h`: head and tail pointers and a length field. -/
structure CList where
  head : Option Nat
  tail : Option Nat
  length : Nat
deriving Repr, DecidableEq

/-- `list_append` — `list.c` lines 53-67: link the node `i` behind the
current tail (or install it as the only node) and increment `length`.
A dangling tail or an unallocated `i` would be a wild pointer write in C;
the model leaves the heap unchanged in that case. -/
def list_append (h : NodeHeap) (l : CList) (i : Nat) : NodeHeap × CList :=
  match l.tail with
  | some t =>
    let h1 := match h t with
      | some tn => h.set t (some { tn with next := some i })
      | none => h
    let h2 := match h1 i with
      | some nd => h1.set i (some { nd with prev := some t, next := none })
      | none => h1
    (h2, { l with tail := some i, length := l.length + 1 })
  | none =>
    let h1 := match h i with
      | some nd => h.set i (some { nd with prev := none, next := none })
      | none => h
    (h1, { head := some i, tail := some i, length := l.length + 1 })

/-- `list_insert_tail` — `list.c` lines 78-84: allocate a node at the fresh
pointer `ptr` holding `v`, then `list_append` it. -/
def list_insert_tail (h : NodeHeap) (l : CList) (ptr v : Nat) :
    NodeHeap × CList :=
  list_append (h.set ptr (some ⟨none, none, v⟩)) l ptr

/-- `list_pop` — `list.c` lines 184-197: unlink and return the head node.
`length` is decremented only when a node was present (in C `length--` on a
`size_t`; under the representation invariant the list is non-empty there,
so `Nat` subtraction coincides). -/
def list_pop (h : NodeHeap) (l : CList) : Option Nat × NodeHeap × CList :=
  match l.head with
  | none => (none, h, l)
  | some i =>
    match h i with
    | none => (some i, h, l)
    | some nd =>
      match nd.next with
      | some j =>
        let h1 := match h j with
          | some jn => h.set j (some { jn with prev := none })
          | none => h
        (some i, h1, { l with head := some j, length := l.length - 1 })
      | none =>
        (some i, h, { l with head := none, tail := none,
                             length := l.length - 1 })

/-- `list_delete` — `list.c` lines 135-153: unlink the node `i`, fix up
`head` (or, only otherwise, `tail`), and free the node.  The source never
decrements `length`, and the `else if` means a node that is both head and
tail updates `head` only. -/
def list_delete (h : NodeHeap) (l : CList) (i : Nat) : NodeHeap × CList :=
  match h i with
  | none => (h, l)
  | some nd =>
    let h1 :=
      match nd.prev, nd.next with
      | some p, some nx =>
        let ha := match h p with
          | some pn => h.set p (some { pn with next := some nx })
          | none => h
        match ha nx with
        | some xn => ha.set nx (some { xn with prev := some p })
        | none => ha
      | some p, none =>
        match h p with
        | some pn => h.set p (some { pn with next := none })
        | none => h
      | none, some nx =>
        match h nx with
        | some xn => h.set nx (some { xn with prev := none })
        | none => h
      | none, none => h
    let l1 :=
      if l.head = some i then { l with head := nd.next }
      else if l.tail = some i then { l with tail := nd.prev }
      else l
    (h1.set i none, l1)

/-- The chain of node pointers reachable from `o` by `next` links: the
witness list `ids` enumerates them in order. -/
inductive ChainOk (h : NodeHeap) : Option Nat → List Nat → Prop
  | nil : ChainOk h none []
  | cons {i : Nat} {nd : CNode} {rest : List Nat} :
      h i = some nd → ChainOk h nd.next rest → ChainOk h (some i) (i :: rest)

/-- The representation invariant of claim C10: `length` equals the number
of nodes reachable from `head`, `tail` is the last such node, and (as a
consequence of the first two) `head` and `tail` are both NULL exactly when
the list is empty. -/
def listInv (h : NodeHeap) (l : CList) : Prop :=
  ∃ ids : List Nat, ChainOk h l.head ids ∧ l.length = ids.length ∧
    l.tail = ids.getLast?

/-- Updating only the `prev` field of a node never changes what is
reachable through `next` links. -/
lemma chainOk_set_prev (h : NodeHeap) (j : Nat) (jn : CNode)
    (p' : Option Nat) (hj : h j = some jn) :
    ∀ {o : Option Nat} {ids : List Nat}, ChainOk h o ids →
      ChainOk (h.set j (some { jn with prev := p' })) o ids := by
  intro o ids hc
  induction hc with
  | nil => exact ChainOk.nil
  | cons hi hrest ihrest =>
    rename_i i nd rest
    by_cases hij : i = j
    · subst hij
      have hnd : nd = jn := by rw [hi] at hj; exact Option.some.inj hj
      subst hnd
      refine @ChainOk.cons _ _ { nd with prev := p' } _ ?_ ?_
      · simp [NodeHeap.set]
      · exact ihrest
    · exact ChainOk.cons (by simp [NodeHeap.set, hij, hi]) ihrest

/-- C10 (amended).  `list_pop` preserves the representation invariant:
after a pop, `length` still counts the nodes reachable from `head`, `tail`
is still the last of them, and head/tail are NULL exactly for the empty
list.  (`list_delete` does not preserve it — see the counterexample.) -/
theorem list_pop_preserves_invariant (h : NodeHeap) (l : CList)
    (hinv : listInv h l) :
    listInv (list_pop h l).2.1 (list_pop h l).2.2 := by
  obtain ⟨ids, hchain, hlen, htail⟩ := hinv
  cases hh : l.head with
  | none =>
    rw [hh] at hchain
    cases hchain
    refine ⟨[], ?_, ?_, ?_⟩
    · simp only [list_pop, hh]
      exact ChainOk.nil
    · simpa [list_pop, hh] using hlen
    · simpa [list_pop, hh] using htail
  | some i =>
    rw [hh] at hchain
    cases hchain with
    | cons hi hrest =>
      rename_i nd rest
      cases hn : nd.next with
      | none =>
        rw [hn] at hrest
        cases hrest
        refine ⟨[], ?_, ?_, ?_⟩
        · simp only [list_pop, hh, hi, hn]
          exact ChainOk.nil
        · simp only [list_pop, hh, hi, hn]
          simp [hlen]
        · simp [list_pop, hh, hi, hn]
      | some j =>
        rw [hn] at hrest
        cases hrest with
        | cons hj hrest2 =>
          rename_i jn rest2
          refine ⟨j :: rest2, ?_, ?_, ?_⟩
          · simp only [list_pop, hh, hi, hn, hj]
            exact @ChainOk.cons _ _ { jn with prev := none } _
              (by simp [NodeHeap.set])
              (chainOk_set_prev h j jn none hj hrest2)
          · simp only [list_pop, hh, hi, hn, hj]
            simp [hlen]
          · simp only [list_pop, hh, hi, hn, hj]
            rw [htail, List.getLast?_cons_cons]

/-- The singleton heap and list for the C10 counterexample: one node at
pointer 0 holding value 5. -/
def nodeHeap0 : NodeHeap := fun i => if i = 0 then some ⟨none, none, 5⟩ else none

/-- The singleton list over `nodeHeap0`. -/
def clist0 : CList := ⟨some 0, some 0, 1⟩

/-- C10 (counterexample).  Deleting the only node of a singleton list does
not leave an empty list with `length` 0: `list_delete` never decrements
`length` (still 1) and the `else if` chain updates only `head`, so `tail`
still points at the freed node while `head` is NULL — the representation
invariant is broken on all three counts. -/
theorem list_delete_singleton_breaks_invariant :
    (list_delete nodeHeap0 clist0 0).2.length = 1 ∧
    (list_delete nodeHeap0 clist0 0).2.head = none ∧
    (list_delete nodeHeap0 clist0 0).2.tail = some 0 ∧
    (list_delete nodeHeap0 clist0 0).1 0 = none := by decide

/-- C10 (witness): the pop-preservation theorem applied to the concrete
singleton list, whose invariant is discharged by the explicit chain. -/
theorem list_pop_preserves_invariant_witness :
    listInv (list_pop nodeHeap0 clist0).2.1 (list_pop nodeHeap0 clist0).2.2 :=
  list_pop_preserves_invariant nodeHeap0 clist0
    ⟨[0], ChainOk.cons rfl ChainOk.nil, rfl, rfl⟩

/-! ## Filesystem — `src/src/fs.c`

Paths, node names and file contents are byte strings (`List Nat`, each
entry `< 256`); `/` is byte 47, NUL is byte 0.  C strings are
NUL-terminated, so reading past a modelled string yields 0 via `getD`. -/

/-- `fs_node_type` of `fs.h`. -/
inductive fs_node_type where
  | INVALID | FILE | DIRECTORY | SYMLINK
deriving Repr, DecidableEq

/-- `ramfs_node`/`ramfs_file` of `fs.c` lines 20-34: a tree node with its
name component (`path` in the source), kind, ordered children, and — for
files — the data pointer and length.  The source's `parent`/`next` links
are represented by the tree structure and child order. -/
inductive RamfsNode where
  | mk (path : List Nat) (typ : fs_node_type) (children : List RamfsNode)
       (data : List Nat) (len : Nat)

/-- Name component of a RAMFS node. -/
def RamfsNode.path : RamfsNode → List Nat
  | .mk p _ _ _ _ => p

/-- Kind of a RAMFS node. -/
def RamfsNode.typ : RamfsNode → fs_node_type
  | .mk _ t _ _ _ => t

/-- Children of a RAMFS node, in list order. -/
def RamfsNode.children : RamfsNode → List RamfsNode
  | .mk _ _ c _ _ => c

/-- File data of a RAMFS node (a slice of the initrd). -/
def RamfsNode.data : RamfsNode → List Nat
  | .mk _ _ _ d _ => d

/-- `ramfs_file.length`. -/
def RamfsNode.len : RamfsNode → Nat
  | .mk _ _ _ _ n => n

/-- `strtok(s, "/")` iterated to exhaustion: the non-empty tokens of `s`
split on byte 47, as `ramfs_find_node` and `load_initrd` consume them. -/
def tokenizeAux : List Nat → List Nat → List (List Nat)
  | [], cur => if cur = [] then [] else [cur.reverse]
  | c :: rest, cur =>
    if c = 47 then
      if cur = [] then tokenizeAux rest []
      else cur.reverse :: tokenizeAux rest []
    else tokenizeAux rest (c :: cur)

/-- The token list of a path. -/
def tokenize (s : List Nat) : List (List Nat) := tokenizeAux s []

/-- The tree walk of `ramfs_find_node` (`fs.c` lines 237-254): descend one
child per token, first child whose name matches (the search loop breaks on
the first match). -/
def ramfs_walk : RamfsNode → List (List Nat) → Option RamfsNode
  | node, [] => some node
  | node, tok :: rest =>
    match node.children.find? (fun c => c.path = tok) with
    | some child => ramfs_walk child rest
    | none => none

/-- `struct fs_node` of `fs.h` as `ramfs_find_node` fills it: kind, the
driver node, `cursor = 0` and `size` (set only for files; the source
leaves it unwritten for other kinds, modelled as 0). -/
structure fs_node where
  typ : fs_node_type
  node : RamfsNode
  cursor : Nat
  size : Nat

/-- `ramfs_find_node` — `fs.c` lines 225-269; `none` is the −1 return. -/
def ramfs_find_node (root : RamfsNode) (path : List Nat) : Option fs_node :=
  match ramfs_walk root (tokenize path) with
  | none => none
  | some n =>
    some { typ := n.typ, node := n, cursor := 0,
           size := if n.typ = fs_node_type.FILE then n.len else 0 }

/-- A VFS mount point (`fs.h`): its path prefix and the RAMFS root that is
its driver state. -/
structure fs_mount_point where
  path : List Nat
  root : RamfsNode

/-- The inner loop of `fs_mount_point_for_path` (`fs.c` lines 61-66): do
all characters of the mount's path match the head of `path`?  A too-short
`path` reads its NUL terminator, which never equals a mount-path byte. -/
def mount_possible : List Nat → List Nat → Bool
  | [], _ => true
  | _ :: _, [] => false
  | c :: ms, d :: ps => if c = d then mount_possible ms ps else false

/-- `fs_mount_point_for_path` — `fs.c` lines 53-78: the mount with the
longest fully-matching path prefix, together with the matched length. -/
def fs_mount_point_for_path (mounts : List fs_mount_point)
    (path : List Nat) : Option fs_mount_point × Nat :=
  mounts.foldl
    (fun acc m =>
      if mount_possible m.path path ∧ m.path.length > acc.2 then
        (some m, m.path.length)
      else acc)
    (none, 0)

/-- `fs_find_node` — `fs.c` lines 90-98. -/
def fs_find_node (mounts : List fs_mount_point) (path : List Nat) :
    Option fs_node :=
  match fs_mount_point_for_path mounts path with
  | (none, _) => none
  | (some m, idx) => ramfs_find_node m.root (path.drop idx)

/-- `ramfs_read` — `fs.c` lines 285-300: error unless the node is a file
and `cursor + n ≤ length`; on success the `n` bytes at `data + cursor` are
copied out (returned here as the second component). -/
def ramfs_read (node : RamfsNode) (cursor n : Nat) : Int × List Nat :=
  if node.typ ≠ fs_node_type.FILE then (-1, [])
  else if cursor + n > node.len then (-1, [])
  else (0, (node.data.drop cursor).take n)

/-- `fs_read` — the inline of `fs.h` lines 56-59: read at the handle's
cursor (the cursor is not advanced). -/
def fs_read (node : fs_node) (n : Nat) : Int × List Nat :=
  ramfs_read node.node node.cursor n

/-- `fs_seek(node, offset, SEEK_SET)` — `fs.h` lines 61-69: sets the
cursor and returns it. -/
def fs_seek_set (node : fs_node) (offset : Nat) : Nat × fs_node :=
  (offset, { node with cursor := offset })

/-! ### USTAR ingest — `load_initrd`, `fs.c` lines 136-178 -/

/-- `oct2bin(str, size)` — `fs.c` lines 113-123 — over `size` bytes of the
archive at `off` (the archive's digits are ASCII `'0'..'7'`, so the
`*c - '0'` never goes negative). -/
def oct2bin (bytes : List Nat) (off size : Nat) : Nat :=
  (List.range size).foldl (fun n k => n * 8 + (bytes.getD (off + k) 0 - 48)) 0

/-- The C string starting at `off` (bytes up to the first NUL). -/
def cstr (bytes : List Nat) (off : Nat) : List Nat :=
  (bytes.drop off).takeWhile (· ≠ 0)

/-- Does the archive carry `"ustar"` at `off` (the `memcmp` of line 141)? -/
def ustarMagicAt (bytes : List Nat) (off : Nat) : Bool :=
  (List.range 5).all
    (fun k => bytes.getD (off + k) 0 = [117, 115, 116, 97, 114].getD k 0)

/-- Index of the LAST child whose name matches `tok`: the directory-walk
loop of `load_initrd` (lines 159-164) scans all children without breaking,
so a later match overwrites an earlier one. -/
def lastMatchIdx (children : List RamfsNode) (tok : List Nat) : Option Nat :=
  match children.reverse.findIdx? (fun c => c.path = tok) with
  | none => none
  | some r => some (children.length - 1 - r)

/-- The path walk of one tar entry (`load_initrd` lines 148-174): descend
through all tokens but the last, creating missing directories
(`ramfs_mkdir` appends to the parent's children), then `ramfs_mkfile` the
last token with the given data slice and length.  A tar path with no
tokens would use the source's uninitialised `ptok` (the behaviour §9
flags); the model creates nothing for it. -/
def tar_insert : RamfsNode → List (List Nat) → List Nat → Nat → RamfsNode
  | node, [], _, _ => node
  | node, [last], data, len =>
    .mk node.path node.typ
      (node.children ++ [.mk last fs_node_type.FILE [] data len])
      node.data node.len
  | node, tok :: rest :: more, data, len =>
    match lastMatchIdx node.children tok with
    | some idx =>
      match node.children.get? idx with
      | some child =>
        .mk node.path node.typ
          (node.children.set idx (tar_insert child (rest :: more) data len))
          node.data node.len
      | none => node
    | none =>
      .mk node.path node.typ
        (node.children ++
          [tar_insert (.mk tok fs_node_type.DIRECTORY [] [] 0)
            (rest :: more) data len])
        node.data node.len

/-- The block loop of `load_initrd`: at offset `p`, stop on a non-USTAR
block, ingest type-'0' (byte 48) entries, and advance by the header block
plus the file's data blocks.  `fuel` bounds the structural recursion; each
step advances `p` by at least 512, so `initrd.length / 512 + 1` steps
reach the end. -/
def load_initrd_loop (initrd : List Nat) : Nat → Nat → RamfsNode → RamfsNode
  | 0, _, root => root
  | fuel + 1, p, root =>
    if p < initrd.length then
      if ustarMagicAt initrd (p + 257) then
        let filesize := oct2bin initrd (p + 0x7c) 11
        let root' :=
          if initrd.getD (p + 156) 0 = 48 then
            tar_insert root (tokenize (cstr initrd p))
              ((initrd.drop (p + 512)).take filesize) filesize
          else root
        load_initrd_loop initrd fuel
          (p + ((filesize + 511) / 512 + 1) * 512) root'
      else root
    else root

/-- `load_initrd` — `fs.c` lines 136-178 — over the root of the first
(only) mount. -/
def load_initrd (initrd : List Nat) (root : RamfsNode) : RamfsNode :=
  load_initrd_loop initrd (initrd.length / 512 + 1) 0 root

/-- `fs_init` — `fs.c` lines 187-210: one mount at `"/"` whose state is an
empty root directory, then the initrd ingest when an initrd is present. -/
def fs_init (initrd : List Nat) : List fs_mount_point :=
  let tmproot : RamfsNode := .mk [] fs_node_type.DIRECTORY [] [] 0
  if initrd = [] then [{ path := [47], root := tmproot }]
  else [{ path := [47], root := load_initrd initrd tmproot }]

/-! ### Scenario B of the spec (§8) — claim C8

A USTAR archive holding one 64-byte regular file `init`: header block
(name `"init"`, size field `"00000000100"` = 0o100 = 64, type byte `'0'`,
magic `"ustar"` at offset 257), then one data block whose first 64 bytes
are 1..64. -/

/-- Byte `i` of scenario B's tar header block. -/
def tarHeaderByteB (i : Nat) : Nat :=
  if i = 0 then 105 else if i = 1 then 110
  else if i = 2 then 105 else if i = 3 then 116
  else if 124 ≤ i ∧ i ≤ 131 then 48
  else if i = 132 then 49
  else if i = 133 then 48
  else if i = 134 then 48
  else if i = 156 then 48
  else if i = 257 then 117 else if i = 258 then 115 else if i = 259 then 116
  else if i = 260 then 97 else if i = 261 then 114
  else 0

/-- The 64 file bytes of scenario B. -/
def payloadB : List Nat := (List.range 64).map (· + 1)

/-- Scenario B's initrd: header block, then the padded data block. -/
def initrdB : List Nat :=
  (List.range 512).map tarHeaderByteB ++ payloadB ++ List.replicate 448 0

/-- The byte string `"/init"`. -/
def pathInitB : List Nat := [47, 105, 110, 105, 116]

/-- C8.  `ramfs_read` on a file node errs exactly when `cursor + n`
exceeds the file's length and otherwise returns 0 and exactly the `n`
bytes at `data + cursor`; and on scenario B's archive, after `fs_init`,
`find_node("/init")` yields a handle with `size = 64` and `cursor = 0`,
and reading 64 bytes reproduces the file's bytes verbatim. -/
theorem ramfs_read_exact (node : RamfsNode) (cursor n : Nat)
    (hfile : node.typ = fs_node_type.FILE) :
    ((ramfs_read node cursor n).1 = -1 ↔ cursor + n > node.len) ∧
    (cursor + n ≤ node.len →
      ramfs_read node cursor n = (0, (node.data.drop cursor).take n)) ∧
    ((fs_find_node (fs_init initrdB) pathInitB).map
      (fun h => (h.size, h.cursor)) = some (64, 0)) ∧
    ((fs_find_node (fs_init initrdB) pathInitB).map
      (fun h => fs_read h 64) = some (0, payloadB)) := by
  refine ⟨?_, ?_, by decide, by decide⟩
  · unfold ramfs_read
    rw [if_neg (by simp [hfile])]
    by_cases hc : cursor + n > node.len
    · rw [if_pos hc]
      simpa using hc
    · rw [if_neg hc]
      constructor
      · intro h
        simp at h
      · intro h
        omega
  · intro h
    unfold ramfs_read
    rw [if_neg (by simp [hfile]), if_neg (by omega)]

/-- A three-byte file node for the C8 witness. -/
def fileNodeW : RamfsNode := .mk [102] fs_node_type.FILE [] [10, 20, 30] 3

/-- C8 (witness): the theorem applied at a concrete file node. -/
theorem ramfs_read_exact_witness :
    ((ramfs_read fileNodeW 1 2).1 = -1 ↔ 1 + 2 > fileNodeW.len) ∧
    (1 + 2 ≤ fileNodeW.len →
      ramfs_read fileNodeW 1 2 = (0, (fileNodeW.data.drop 1).take 2)) ∧
    ((fs_find_node (fs_init initrdB) pathInitB).map
      (fun h => (h.size, h.cursor)) = some (64, 0)) ∧
    ((fs_find_node (fs_init initrdB) pathInitB).map
      (fun h => fs_read h 64) = some (0, payloadB)) :=
  ramfs_read_exact fileNodeW 1 2 rfl

/-! ## Paging — `src/src/arch/x86_64/paging.c` and its headers -/

/-- Architecture-neutral flags (`paging.h`). -/
def P_WRITE : Nat := 1

/-- `P_USER` (`paging.h`). -/
def P_USER : Nat := 2

/-- `P_COW` (`paging.h`, `src/unnamed/part_017`). -/
def P_COW : Nat := 4

/-- `P_USER_WRITE = P_USER | P_WRITE`. -/
def P_USER_WRITE : Nat := P_USER ||| P_WRITE

/-- `P_X64_PRESENT` (`arch/x86_64/gdt.h`). -/
def P_X64_PRESENT : Nat := 1

/-- `P_X64_WRITE`. -/
def P_X64_WRITE : Nat := 2

/-- `P_X64_USER`. -/
def P_X64_USER : Nat := 4

/-- Modelled from the spec: `P_X64_COW` is referenced by `paging.c` and
`task.c` but its defining header is not among the source files; §4.2 calls
it "a software-reserved bit marking COW", so a free software bit (bit 9)
stands in.  No call modelled here passes `P_COW`, so the value is inert. -/
def P_X64_COW : Nat := 1 <<< 9

/-- `paging_flags_to_arch` — `paging.c` lines 42-52. -/
def paging_flags_to_arch (flags : Nat) : Nat :=
  let a := P_X64_PRESENT
  let a := if flags &&& P_USER ≠ 0 then a ||| P_X64_USER else a
  let a := if flags &&& P_WRITE ≠ 0 then a ||| P_X64_WRITE else a
  if flags &&& P_COW ≠ 0 then a ||| P_X64_COW else a

/-- An address space: the finite map of present leaf page-table entries,
keyed by the 36-bit virtual page number `(vaddr >> 12) & 0xFFFFFFFFF`
(the concatenation of the `PML4/PDPT/PD/PT_INDEX` macros of
`arch/x86_64/gdt.h`).  The 4-level walk of `paging_map_page` installs
exactly one leaf entry per vaddr; the intermediate tables it may create
affect only which physical frames hold paging structures and are not
tracked by the model. -/
def AddrSpace := List (Nat × Nat)

instance : DecidableEq AddrSpace :=
  inferInstanceAs (DecidableEq (List (Nat × Nat)))

/-- The leaf entry mapped at virtual page `vp`, if present. -/
def AddrSpace.lookup (a : AddrSpace) (vp : Nat) : Option Nat :=
  (List.find? (fun e => e.1 = vp) a).map (fun e => e.2)

/-- The virtual page number key of a vaddr. -/
def vpn (vaddr : Nat) : Nat := (vaddr >>> 12) &&& 0xFFFFFFFFF

/-- `paddr & ~0xFFF` in `uint64_t`. -/
def alignDown (paddr : Nat) : Nat := ((paddr % 2 ^ 64) >>> 12) <<< 12

/-- Modelled from the spec: `frame_ref_inc`/`frame_ref_dec` (§4.1,
declared in `src/unnamed/part_016`) are not among the source files, and
the optional refcount array is absent in the modelled configuration
(`task.c` line 68 guards `if (!frame_refcounts)`), so both are no-ops
here. -/
def frame_ref_inc (m : memory) (_paddr : Nat) : memory := m

/-- `paging_map_page` — `paging.c` lines 79-108: walk (or create) the
intermediate tables and set the leaf to `(paddr & ~0xFFF) | arch_flags`;
`frame_ref_inc` on the frame is a no-op here (no refcount array). -/
def paging_map_page (a : AddrSpace) (vaddr paddr flags : Nat) : AddrSpace :=
  (vpn vaddr, alignDown paddr ||| paging_flags_to_arch flags) ::
    List.filter (fun e => e.1 ≠ vpn vaddr) a

/-! ## ELF loader — `src/unnamed/part_001` and `elf.h` (`part_015`) -/

/-- A little-endian field of `n` bytes at offset `off`. -/
def leN (bytes : List Nat) (off n : Nat) : Nat :=
  (List.range n).foldr (fun k acc => acc * 256 + bytes.getD (off + k) 0) 0

/-- `ELF_IDENTIFICATION` (`elf.h`): the fields `validate_elf` reads. -/
structure ELF_IDENTIFICATION where
  Magic : List Nat
  ABI : Nat
deriving Repr, DecidableEq

/-- `ELF_HEADER` (`elf.h`): the fields `load_elf` reads. -/
structure ELF_HEADER where
  Id : ELF_IDENTIFICATION
  Type' : Nat
  Entry : Nat
  PHeaderBase : Nat
  PHeaderEntrySize : Nat
  PHeaderEntryCount : Nat
deriving Repr, DecidableEq

/-- `ELF_PROGRAM_HEADER` (`elf.h`): the fields `load_elf` reads. -/
structure ELF_PROGRAM_HEADER where
  Type' : Nat
  Offset : Nat
  VirtualStart : Nat
  FileSize : Nat
  MemorySize : Nat
deriving Repr, DecidableEq

/-- Decode an `ELF_HEADER` from file bytes, per the struct layout of
`elf.h`: magic at 0-3, ABI at 7, type at 16-17, entry at 24-31, program
header base at 32-39, entry size at 54-55, entry count at 56-57. -/
def decode_elf_header (b : List Nat) : ELF_HEADER :=
  { Id := { Magic := [b.getD 0 0, b.getD 1 0, b.getD 2 0, b.getD 3 0],
            ABI := b.getD 7 0 },
    Type' := leN b 16 2, Entry := leN b 24 8, PHeaderBase := leN b 32 8,
    PHeaderEntrySize := leN b 54 2, PHeaderEntryCount := leN b 56 2 }

/-- Decode an `ELF_PROGRAM_HEADER` at byte offset `off`, per `elf.h`:
type at +0, offset at +8, vaddr at +16, file size at +32, memory size at
+40. -/
def decode_program_header (b : List Nat) (off : Nat) : ELF_PROGRAM_HEADER :=
  { Type' := leN b off 4, Offset := leN b (off + 8) 8,
    VirtualStart := leN b (off + 16) 8, FileSize := leN b (off + 32) 8,
    MemorySize := leN b (off + 40) 8 }

/-- `ELF_MAGIC` = `"\177ELF"`. -/
def ELF_MAGIC : List Nat := [0x7F, 69, 76, 70]

/-- `ELF_EXECUTABLE` (`elf.h`). -/
def ELF_EXECUTABLE : Nat := 2

/-- `ELF_P_LOAD` (`elf.h`). -/
def ELF_P_LOAD : Nat := 1

/-- `validate_elf` — `part_001` lines 15-29: magic, ABI 0, type
executable. -/
def validate_elf (hdr : ELF_HEADER) : Bool :=
  hdr.Id.Magic = ELF_MAGIC ∧ hdr.Id.ABI = 0 ∧ hdr.Type' = ELF_EXECUTABLE

/-- `struct elf_image` (`elf.h`). -/
structure elf_image where
  refcount : Nat
  entry : Nat
  phsize : Nat
  phnum : Nat
  phdr : List ELF_PROGRAM_HEADER
deriving Repr, DecidableEq

/-- The mutable state threaded through `load_elf`'s segment loop. -/
structure ElfLoopState where
  mem : memory
  tables : AddrSpace
  procTables : AddrSpace
  ret : Bool
  broke : Bool

/-- One `PT_LOAD` segment of the loop body (`part_001` lines 65-82):
allocate and lock the frames, map them `USER_WRITE` into the current
(`tables`) and the destination (`proc->tables`) address spaces, and read
the payload (`fs_seek` to the segment offset, then `fs_read` of `FileSize`
bytes into the just-mapped virtual address; only the read's
success/failure is tracked — the mapped frames' byte contents are not
modelled).  `broke := true` models `break`. -/
def load_elf_segment (node : fs_node) (st : ElfLoopState)
    (phdr : ELF_PROGRAM_HEADER) : ElfLoopState :=
  let memory_pages := (phdr.MemorySize + PAGE_SIZE - 1) / PAGE_SIZE
  let pages := find_free_frames st.mem memory_pages
  if pages = -1 then { st with broke := true }
  else
    let (r, mem') := set_frame_lock st.mem pages.toNat memory_pages true
    if r < 0 then { st with mem := mem', broke := true }
    else
      let t' := paging_map_page st.tables phdr.VirtualStart
        (pages.toNat * PAGE_SIZE) P_USER_WRITE
      let p' := paging_map_page st.procTables phdr.VirtualStart
        (pages.toNat * PAGE_SIZE) P_USER_WRITE
      if (ramfs_read node.node phdr.Offset phdr.FileSize).1 < 0 then
        { mem := mem', tables := t', procTables := p', ret := st.ret,
          broke := true }
      else { st with mem := mem', tables := t', procTables := p' }

/-- The segment loop of `load_elf` (`part_001` lines 63-87) over the
enumerated program headers.  The source's `if (i == hdr.PHeaderEntryCount)
ret = true;` sits inside the loop body, where `i < PHeaderEntryCount`
always holds, and is translated verbatim. -/
def load_elf_loop (node : fs_node) (count : Nat)
    (phdrs : List ELF_PROGRAM_HEADER) (st0 : ElfLoopState) : ElfLoopState :=
  phdrs.enum.foldl
    (fun st ip =>
      if st.broke then st
      else
        let st' := if ip.2.Type' = ELF_P_LOAD then load_elf_segment node st ip.2
          else st
        if st'.broke then st'
        else if ip.1 = count then { st' with ret := true }
        else st')
    st0

/-- What `load_elf` leaves behind. -/
structure LoadElfResult where
  ret : Bool
  mem : memory
  tables : AddrSpace
  procTables : AddrSpace
  image : Option elf_image

/-- `load_elf` — `src/unnamed/part_001` lines 41-97.  `tables` is the
caller's current address space (the global `tables`), `procTables` the
destination process's.  `image = none` means `proc->image` was left
untouched (the early-return paths); otherwise the record is installed even
when the loop broke early, exactly as in the source. -/
def load_elf (mem : memory) (tables : AddrSpace) (node : fs_node)
    (procTables : AddrSpace) : LoadElfResult :=
  -- fs_read(node, &hdr, sizeof(ELF_HEADER)): the return value is not
  -- checked (line 45); on a short file the stack `hdr` stays
  -- uninitialised, modelled as decoding an empty byte string (which the
  -- magic check then rejects).
  let hdrRead := ramfs_read node.node node.cursor 64
  let hdr := decode_elf_header (if hdrRead.1 = 0 then hdrRead.2 else [])
  if ¬ validate_elf hdr then
    { ret := false, mem := mem, tables := tables, procTables := procTables,
      image := none }
  else
    -- pos = fs_seek(node, hdr.PHeaderBase, SEEK_SET) returns the cursor it
    -- just set, so the `pos != hdr.PHeaderBase` guard (line 52) never
    -- fires; it is kept verbatim.
    let seek := fs_seek_set node hdr.PHeaderBase
    if seek.1 ≠ hdr.PHeaderBase then
      { ret := false, mem := mem, tables := tables,
        procTables := procTables, image := none }
    else
      let node := seek.2
      if (fs_read node (hdr.PHeaderEntrySize * hdr.PHeaderEntryCount)).1 < 0
      then
        { ret := false, mem := mem, tables := tables,
          procTables := procTables, image := none }
      else
        -- the phdrs buffer holds the file bytes from PHeaderBase on;
        -- entry i is decoded at stride PHeaderEntrySize
        let phdrs := (List.range hdr.PHeaderEntryCount).map
          (fun i => decode_program_header node.node.data
            (hdr.PHeaderBase + i * hdr.PHeaderEntrySize))
        let st := load_elf_loop node hdr.PHeaderEntryCount phdrs
          { mem := mem, tables := tables, procTables := procTables,
            ret := false, broke := false }
        { ret := st.ret, mem := st.mem, tables := st.tables,
          procTables := st.procTables,
          image := some { refcount := 1, entry := hdr.Entry,
                          phsize := hdr.PHeaderEntrySize,
                          phnum := hdr.PHeaderEntryCount, phdr := phdrs } }

/-! ### Scenario C of the spec (§8) — claim C1

A well-formed static ELF executable: valid magic, ABI 0, type executable,
entry `0x401000`, and two `PT_LOAD` segments of one page each at
`vaddr = 0x400000` and `vaddr = 0x600000`, with in-bounds payloads. -/

/-- Byte `i` of the scenario-C ELF file. -/
def elfByteC1 (i : Nat) : Nat :=
  if i = 0 then 0x7F else if i = 1 then 69
  else if i = 2 then 76 else if i = 3 then 70
  else if i = 16 then 2
  else if i = 25 then 0x10 else if i = 26 then 0x40
  else if i = 32 then 64
  else if i = 54 then 56
  else if i = 56 then 2
  else if i = 64 then 1
  else if i = 72 then 176
  else if i = 82 then 0x40
  else if i = 96 then 16
  else if i = 105 then 0x10
  else if i = 120 then 1
  else if i = 128 then 192
  else if i = 138 then 0x60
  else if i = 152 then 16
  else if i = 161 then 0x10
  else 0

/-- The scenario-C ELF file bytes (208 of them: header, two program
headers, two 16-byte payloads). -/
def elfBytesC1 : List Nat := (List.range 208).map elfByteC1

/-- A 64-frame, all-free allocator for the load. -/
def memElf : memory :=
  { base := 0, length := 64 * 4096, bitmapAddr := 0, bitmapData := fun _ => 0 }

/-- The open handle on the scenario-C ELF, as `fs_find_node` would return
it. -/
def elfNodeC1 : fs_node :=
  { typ := fs_node_type.FILE,
    node := .mk [112] fs_node_type.FILE [] elfBytesC1 208,
    cursor := 0, size := 208 }

/-- `load_elf` on scenario C into an empty destination address space. -/
def loadC1 : LoadElfResult := load_elf memElf [] elfNodeC1 []

/-- C1 (code bug).  On the well-formed scenario-C executable every
`PT_LOAD` segment is allocated and mapped `USER_WRITE` (present, user,
write leaf entries at exactly virtual pages `0x400000 >> 12` and
`0x600000 >> 12`) and the image record is installed with `refcount = 1`
and `entry` equal to the header's `Entry` — yet `load_elf` returns
`false`: its `ret = true` assignment is guarded by
`i == hdr.PHeaderEntryCount` inside a loop body where
`i < hdr.PHeaderEntryCount` always holds, so it never executes,
contradicting the function's own `@return true on success`. -/
theorem load_elf_success_path_returns_false :
    validate_elf (decode_elf_header elfBytesC1) = true ∧
    (decode_elf_header elfBytesC1).Entry = 0x401000 ∧
    loadC1.ret = false ∧
    loadC1.image.map (fun im => (im.refcount, im.entry)) =
      some (1, 0x401000) ∧
    loadC1.procTables = [(vpn 0x600000, 150994951), (vpn 0x400000, 7)] ∧
    150994951 &&& (P_X64_PRESENT ||| P_X64_USER ||| P_X64_WRITE) = 7 ∧
    7 = P_X64_PRESENT ||| P_X64_USER ||| P_X64_WRITE := by decide

/-! ## The kernel state for the task and syscall layer

`src/src/arch/x86_64/task.c` and `src/src/arch/x86_64/syscall.c` share a
set of globals (the PFA, the global `tables`, the process list, the ready
queue, the service list) and heap objects reached through pointers
(threads, processes).  `Kernel` bundles them; threads are stored under
numeric pointers, processes in the `processes` list's order.

The `struct list` instances these files manipulate are modelled at the
value-sequence level by `CListM`: the sequence of stored values plus the
`length` field, carried separately because `list_delete` (see the
node-level model above) unlinks a node without decrementing `length`. -/

/-- A `struct list` as its kernel clients observe it: the value sequence
and the `length` field. -/
structure CListM (α : Type) where
  items : List α
  length : Nat
deriving Repr, DecidableEq

/-- `list_create` — an empty list. -/
def clist_create {α : Type} : CListM α := ⟨[], 0⟩

/-- `list_insert_tail` — append a value, `length++`. -/
def clist_insert_tail {α : Type} (l : CListM α) (v : α) : CListM α :=
  ⟨l.items ++ [v], l.length + 1⟩

/-- Modelled from the spec: `list_shift` is called throughout `syscall.c`
and `task.c` but is defined in no source file (`list.h` declares only its
siblings).  Per §4.7's POP semantics ("writes the top-of-stack and for POP
removes it", the stack being consumed front-first) and the null guard at
every call site, it unlinks the first node and returns its value, or NULL
on an empty list. -/
def clist_shift {α : Type} (l : CListM α) : Option α × CListM α :=
  match l.items with
  | [] => (none, l)
  | x :: xs => (some x, ⟨xs, l.length - 1⟩)

/-- `list_find` followed by `list_delete` when found, as `task.c` uses the
pair: the first node holding `v` is unlinked; `length` stays as it was
(`list_delete` has no `length--`). -/
def clist_find_delete {α : Type} [DecidableEq α] (l : CListM α) (v : α) :
    CListM α :=
  if v ∈ l.items then ⟨l.items.erase v, l.length⟩ else l

/-- Replace the first element satisfying `p` (pointer-style in-place
update of the found object). -/
def updateFirst {α : Type} (p : α → Bool) (f : α → α) : List α → List α
  | [] => []
  | x :: xs => if p x then f x :: xs else x :: updateFirst p f xs

/-- `KERNEL_BASE` (`task.c` line 20; also the kernel-half bound the
syscall layer checks pointers against). -/
def KERNEL_BASE : Nat := 0xfffffffff8000000

/-- `TASK_DEFAULT_STACK_PAGES` (`task.c` line 18). -/
def TASK_DEFAULT_STACK_PAGES : Nat := 4

/-- `TASK_DEFAULT_STACK_SIZE`. -/
def TASK_DEFAULT_STACK_SIZE : Nat := TASK_DEFAULT_STACK_PAGES * PAGE_SIZE

/-- `SYSCALL_PARAM_ARRAY` (`syscall.h`). -/
def SYSCALL_PARAM_ARRAY : Nat := 0

/-- `SYSCALL_PARAM_PRIMITIVE` (`syscall.h`). -/
def SYSCALL_PARAM_PRIMITIVE : Nat := 1

/-- A kernel-held IPC argument: `struct syscall_param` once `PUSH` has
copied it into kernel memory.  Arrays carry the kernel-owned byte buffer
and the declared size. -/
inductive SyscallParam where
  | primitive (value : Nat)
  | array (bytes : List Nat) (size : Nat)
deriving Repr, DecidableEq

/-- The user-supplied `struct syscall_param` on the wire (§6):
`{type, size, payload}`, `payload` being the value (PRIMITIVE) or a user
pointer (ARRAY). -/
structure UserParam where
  typ : Nat
  size : Nat
  payload : Nat
deriving Repr, DecidableEq

/-- The fields of `struct interrupt_frame` the modelled code assigns.  A
frame fresh from `malloc` has indeterminate bytes; fields the source
leaves unassigned are modelled as 0. -/
structure InterruptFrame where
  rip : Nat := 0
  rsp : Nat := 0
  rbp : Nat := 0
  rdi : Nat := 0
  rsi : Nat := 0
  rdx : Nat := 0
  rax : Nat := 0
  cs : Nat := 0
  ss : Nat := 0
  rflags : Nat := 0
deriving Repr, DecidableEq

/-- `struct thread` (`task.c`'s version, with `ipc_handler`). -/
structure Thread where
  id : Nat
  procId : Nat
  exiting : Bool
  ipc_handler : Bool
  stack : Nat
  syscall_params : CListM SyscallParam
  context : InterruptFrame
deriving Repr, DecidableEq

/-- `struct process` (`task.h`): threads and children hold thread/process
pointers. -/
structure Process where
  id : Nat
  image : Option elf_image
  tables : AddrSpace
  syscall_callback : Option Nat
  threads : CListM Nat
  next_tid : Nat
  parentId : Option Nat
  children : CListM Nat
deriving DecidableEq

/-- A registered service row (`struct syscall_id_name`): id and name. -/
structure ServiceRow where
  id : Int
  name : List Nat
deriving Repr, DecidableEq

/-- The kernel state shared by `task.c` and `syscall.c`: the PFA, the
global `tables` of `paging.c`, whatever `paging_set_current` last
installed, the `processes` list, the ready queue, the thread heap (by
numeric pointer, with a bump allocator for fresh pointers), the VFS
mounts, the `syscall_services` list, the serial sink, and user memory (for
`PUSH`'s copies). -/
structure Kernel where
  mem : memory
  kernelTables : AddrSpace
  currentTables : AddrSpace
  procs : List Process
  task_queue : CListM Nat
  threadStore : List (Nat × Thread)
  nextPtr : Nat
  mounts : List fs_mount_point
  syscall_services : List ServiceRow
  serialOut : List Nat
  userMem : Nat → Nat

/-- The thread behind pointer `t`. -/
def Kernel.thread? (k : Kernel) (t : Nat) : Option Thread :=
  (List.find? (fun p => p.1 = t) k.threadStore).map (fun p => p.2)

/-- In-place update of the thread behind pointer `t`. -/
def Kernel.updateThread (k : Kernel) (t : Nat) (f : Thread → Thread) :
    Kernel :=
  { k with threadStore :=
      updateFirst (fun p => p.1 = t) (fun p => (p.1, f p.2)) k.threadStore }

/-- In-place update of the first process with id `pid` (the one a pointer
obtained from `task_find_process` designates). -/
def Kernel.updateProc (k : Kernel) (pid : Nat) (f : Process → Process) :
    Kernel :=
  { k with procs := updateFirst (fun p => p.id = pid) f k.procs }

/-- `task_find_process` — `task.c` lines 354-362. -/
def task_find_process (k : Kernel) (pid : Nat) : Option Process :=
  k.procs.find? (fun p => p.id = pid)

/-- `paging_set_current` — `paging.c` lines 181-184 (installs the root in
CR3). -/
def paging_set_current (k : Kernel) (a : AddrSpace) : Kernel :=
  { k with currentTables := a }

/-- The restore step of `syscall_method` (`syscall.c` lines 448-450):
look the caller's process up again and re-install its address space if it
is still there. -/
def paging_restore (k : Kernel) (o : Option Process) : Kernel :=
  match o with
  | some cp => paging_set_current k cp.tables
  | none => k

/-- The registration step of `task_new_thread`: store the new thread
behind the bump pointer and advance it. -/
def Kernel.appendThread (k : Kernel) (tptr : Nat) (th : Thread) : Kernel :=
  { k with threadStore := k.threadStore ++ [(tptr, th)],
           nextPtr := tptr + 1 }

/-- The final step of `task_new_thread`: enqueue the thread pointer on
the ready queue. -/
def Kernel.pushQueue (k : Kernel) (tptr : Nat) : Kernel :=
  { k with task_queue := clist_insert_tail k.task_queue tptr }

/-- `task_alloc_stack` — `task.c` lines 138-152: pick the per-tid virtual
stack window below `KERNEL_BASE`, grab four frames, lock them, map them
`USER_WRITE` into the owning process's tables, and record the VIRTUAL base
in `thread->stack`.  On allocation failure it returns with the thread's
`stack` untouched. -/
def task_alloc_stack (k : Kernel) (tptr : Nat) : Kernel :=
  match k.thread? tptr with
  | none => k
  | some t =>
    let vstack := KERNEL_BASE - TASK_DEFAULT_STACK_SIZE * t.id
    let stack := find_free_frames k.mem TASK_DEFAULT_STACK_PAGES
    if stack = -1 then k
    else
      let (r, mem') :=
        set_frame_lock k.mem stack.toNat TASK_DEFAULT_STACK_PAGES true
      if r < 0 then { k with mem := mem' }
      else
        let k := { k with mem := mem' }
        let k := Kernel.updateProc k t.procId (fun p =>
          let mapped := (List.range TASK_DEFAULT_STACK_PAGES).foldl
            (fun a i => paging_map_page a (vstack + i * PAGE_SIZE)
              (stack.toNat + i * PAGE_SIZE) P_USER_WRITE) p.tables
          { p with tables := mapped })
        Kernel.updateThread k tptr (fun th => { th with stack := vstack })

/-- `task_new_thread` — `task.c` lines 252-275.  Note: `syscall.c` calls
this with only two arguments against the three-parameter definition (the
`task.h` in the tree still declares the two-parameter version), so the
`ipc_handler` argument at that call site is an uninitialised register; the
caller below passes an explicit value. -/
def task_new_thread (k : Kernel) (pid : Nat) (entry : Nat)
    (ipc_handler : Bool) : Kernel × Nat :=
  let tptr := k.nextPtr
  match task_find_process k pid with
  | none => (k, tptr)
  | some proc =>
    let th : Thread :=
      { id := proc.next_tid, procId := pid, exiting := false,
        ipc_handler := ipc_handler, stack := 0,
        syscall_params := clist_create, context := {} }
    let k := Kernel.updateProc k pid (fun p =>
      { p with next_tid := p.next_tid + 1 })
    let k := k.appendThread tptr th
    let k := task_alloc_stack k tptr
    let stackv := match k.thread? tptr with
      | some t => t.stack
      | none => 0
    let frame : InterruptFrame :=
      { rip := entry, rsp := stackv + TASK_DEFAULT_STACK_SIZE,
        rbp := stackv + TASK_DEFAULT_STACK_SIZE,
        cs := 0x2B, ss := 0x23, rflags := 0x202 }
    let k := Kernel.updateThread k tptr (fun t => { t with context := frame })
    let k := Kernel.updateProc k pid (fun p =>
      { p with threads := clist_insert_tail p.threads tptr })
    (k.pushQueue tptr, tptr)

/-- `task_delete_thread` — `task.c` lines 286-309: unlink from the ready
queue and the owner's thread list (`list_find` + `list_delete`, which
leaves `length` untouched), then `set_frame_lock(thread->stack, 4, false)`
— `thread->stack` being the VIRTUAL stack base — then free the argument
stack (non-handler threads only) and the thread itself. -/
def task_delete_thread (k : Kernel) (tptr : Nat) : Kernel :=
  match k.thread? tptr with
  | none => k
  | some t =>
    let k := { k with task_queue := clist_find_delete k.task_queue tptr }
    let k := Kernel.updateProc k t.procId (fun p =>
      { p with threads := clist_find_delete p.threads tptr })
    let k := { k with
      mem := (set_frame_lock k.mem t.stack TASK_DEFAULT_STACK_PAGES false).2 }
    { k with threadStore := k.threadStore.filter (fun p => p.1 ≠ tptr) }

/-- `task_free_address_space` — `task.c` lines 31-95, in the
no-refcount-array configuration: every mapped user leaf's frame is
unlocked (`frame_ref_dec` is a no-op, then `set_frame_lock(paddr, 1,
false)`).  The paging-structure frames the source also frees are not
tracked by the `AddrSpace` model.  All the operations only clear bits, so
the fold's order is immaterial. -/
def task_free_address_space (m : memory) (a : AddrSpace) : memory :=
  a.foldl (fun mem e => (set_frame_lock mem ((e.2 / 4096) * 4096) 1 false).2) m

/-- `task_new_address_space` — `task.c` lines 120-128: a fresh root with
the kernel half cloned; it has no user leaf entries.  The three
paging-structure frames it allocates are not tracked. -/
def task_new_address_space (k : Kernel) (pid : Nat) : Kernel :=
  Kernel.updateProc k pid (fun p => { p with tables := [] })

/-! ## Syscalls — `src/src/arch/x86_64/syscall.c` -/

/-- ASCII bytes of a literal name. -/
def strBytes (s : String) : List Nat := s.toList.map Char.toNat

/-- `SYSCALL_LOCAL_NAME_SERVICE` (`syscall.h`). -/
def SYSCALL_LOCAL_NAME_SERVICE : Nat := 0

/-- `SYSCALL_GLOBAL_NAME_SERVICE`. -/
def SYSCALL_GLOBAL_NAME_SERVICE : Nat := 1

/-- `SYSCALL_STDIO`. -/
def SYSCALL_STDIO : Nat := 2

/-- The static `syscall_kernel` row (`syscall.c` line 25). -/
def syscall_kernel : ServiceRow := ⟨0, strBytes "fi.erikinkinen.kernel"⟩

/-- `syscall_kernel_interfaces` (`syscall.c` lines 27-34). -/
def syscall_kernel_interfaces : List (Int × List Nat) :=
  [(0, strBytes "fi.erikinkinen.LocalNameService"),
   (1, strBytes "fi.erikinkinen.GlobalNameService"),
   (2, strBytes "fi.erikinkinen.kernel.Stdio")]

/-- `syscall_local_name_service_methods` (lines 36-40). -/
def syscall_local_name_service_methods : List (Int × List Nat) :=
  [(0, strBytes "FindInterface"), (1, strBytes "FindMethod")]

/-- `syscall_global_name_service_methods` (lines 42-47). -/
def syscall_global_name_service_methods : List (Int × List Nat) :=
  [(0, strBytes "FindDestination"), (1, strBytes "RegisterDestination"),
   (2, strBytes "UnregisterDestination")]

/-- `syscall_stdio_methods` (lines 49-54). -/
def syscall_stdio_methods : List (Int × List Nat) :=
  [(0, strBytes "Read"), (1, strBytes "Write"), (2, strBytes "Flush")]

/-- `syscall_find_service` — `syscall.c` lines 67-86: shift the name
argument (consumed even on type errors) and scan the service list. -/
def syscall_find_service (services : List ServiceRow)
    (params : CListM SyscallParam) : Int × CListM SyscallParam :=
  match clist_shift params with
  | (none, l) => (-1, l)
  | (some p, l) =>
    match p with
    | .primitive _ => (-1, l)
    | .array name _ =>
      match services.find? (fun s => s.name = name) with
      | some s => (s.id, l)
      | none => (-1, l)

/-- `syscall_find_id` — `syscall.c` lines 96-113, over a static table. -/
def syscall_find_id (table : List (Int × List Nat))
    (params : CListM SyscallParam) : Int × CListM SyscallParam :=
  match clist_shift params with
  | (none, l) => (-1, l)
  | (some p, l) =>
    match p with
    | .primitive _ => (-1, l)
    | .array name _ =>
      match table.find? (fun e => e.2 = name) with
      | some e => (e.1, l)
      | none => (-1, l)

/-- `syscall_find_method` — `syscall.c` lines 122-143. -/
def syscall_find_method (params : CListM SyscallParam) :
    Int × CListM SyscallParam :=
  match clist_shift params with
  | (none, l) => (-1, l)
  | (some p, l) =>
    match p with
    | .array _ _ => (-1, l)
    | .primitive iface =>
      if iface = SYSCALL_LOCAL_NAME_SERVICE then
        syscall_find_id syscall_local_name_service_methods l
      else if iface = SYSCALL_GLOBAL_NAME_SERVICE then
        syscall_find_id syscall_global_name_service_methods l
      else if iface = SYSCALL_STDIO then
        syscall_find_id syscall_stdio_methods l
      else (-1, l)

/-- `syscall_stdio_write` — `syscall.c` lines 154-166: append the
argument's bytes (up to the first NUL, as `%s` prints) to the serial
sink. -/
def syscall_stdio_write (out : List Nat) (params : CListM SyscallParam) :
    Int × List Nat × CListM SyscallParam :=
  match clist_shift params with
  | (none, l) => (-1, out, l)
  | (some p, l) =>
    match p with
    | .primitive _ => (-1, out, l)
    | .array bytes _ => (0, out ++ bytes.takeWhile (· ≠ 0), l)

/-- `syscall_register_service` — `syscall.c` lines 177-218: shift the name
(array) and the entry point (primitive; the union's `array` member reads
the same bits as `value`), then update or append the caller's service row,
set the process's `syscall_callback`, and return the pid. -/
def syscall_register_service (k : Kernel) (callerPid : Nat)
    (params : CListM SyscallParam) : Int × Kernel × CListM SyscallParam :=
  match clist_shift params with
  | (none, l) => (-1, k, l)
  | (some nameP, l) =>
    match nameP with
    | .primitive _ => (-1, k, l)
    | .array name _ =>
      match clist_shift l with
      | (none, l2) => (-1, k, l2)
      | (some cbP, l2) =>
        match cbP with
        | .array _ _ => (-1, k, l2)
        | .primitive cb =>
          if cb = 0 then (-1, k, l2)
          else
            let rows :=
              if (k.syscall_services.find?
                  (fun s => s.id = (callerPid : Int))).isSome then
                updateFirst (fun s => s.id = (callerPid : Int))
                  (fun s => { s with name := name }) k.syscall_services
              else k.syscall_services ++ [⟨(callerPid : Int), name⟩]
            let k := { k with syscall_services := rows }
            let k := Kernel.updateProc k callerPid (fun p =>
              { p with syscall_callback := some cb })
            ((callerPid : Int), k, l2)

/-- `syscall_unregister_service` — `syscall.c` lines 229-251: remove the
first service row whose name matches. -/
def syscall_unregister_service (k : Kernel)
    (params : CListM SyscallParam) : Int × Kernel × CListM SyscallParam :=
  match clist_shift params with
  | (none, l) => (-1, k, l)
  | (some p, l) =>
    match p with
    | .primitive _ => (-1, k, l)
    | .array name _ =>
      if (k.syscall_services.find? (fun s => s.name = name)).isSome then
        let rows := k.syscall_services.eraseP (fun s => s.name = name)
        (0, { k with syscall_services := rows }, l)
      else (-1, k, l)

/-- `syscall_kernel_method` — `syscall.c` lines 265-301: the `pid = 0`
dispatch over interface and method ids; the handlers consume the caller's
argument stack. -/
def syscall_kernel_method (k : Kernel) (callerPid : Nat)
    (iface method : Nat) (params : CListM SyscallParam) :
    Int × Kernel × CListM SyscallParam :=
  if iface = SYSCALL_LOCAL_NAME_SERVICE then
    if method = 0 then
      let (r, l) := syscall_find_id syscall_kernel_interfaces params
      (r, k, l)
    else if method = 1 then
      let (r, l) := syscall_find_method params
      (r, k, l)
    else (-1, k, params)
  else if iface = SYSCALL_GLOBAL_NAME_SERVICE then
    if method = 0 then
      let (r, l) := syscall_find_service k.syscall_services params
      (r, k, l)
    else if method = 1 then syscall_register_service k callerPid params
    else if method = 2 then syscall_unregister_service k params
    else (-1, k, params)
  else if iface = SYSCALL_STDIO then
    if method = 0 then (-1, k, params)
    else if method = 1 then
      let (r, out, l) := syscall_stdio_write k.serialOut params
      (r, { k with serialOut := out }, l)
    else if method = 2 then (0, k, params)
    else (-1, k, params)
  else (-1, k, params)

/-- `syscall_copy_params` — `syscall.c` lines 311-318: `while
(src->length) list_insert_tail(dst, list_shift(src))` — every node of
`src` is MOVED, in order, onto `dst`'s tail; on lists whose `length` field
matches their contents (every IPC stack here) `src` ends empty. -/
def syscall_copy_params (src dst : CListM SyscallParam) :
    CListM SyscallParam × CListM SyscallParam :=
  (⟨[], src.length - src.items.length⟩,
   ⟨dst.items ++ src.items, dst.length + src.items.length⟩)

/-- `syscall_copy_param` — `syscall.c` lines 331-346: write the type and
size, then the value (primitives) or — for arrays — copy the bytes to the
caller's destination pointer unless it is NULL (silently skipped) or in
the kernel half (refused).  The bytes landing in user memory are not
modelled. -/
def syscall_copy_param (src : SyscallParam) (dst : UserParam) : Int :=
  match src with
  | .primitive _ => 0
  | .array _ _ =>
    if dst.payload = 0 then 0
    else if dst.payload < KERNEL_BASE then 0
    else -1

/-- `syscall_param_push` — `syscall.c` lines 358-382: reject array
pointers in the kernel half, copy array bytes from user memory into a
kernel buffer, and append the parameter to the list. -/
def syscall_param_push (userMem : Nat → Nat) (params : CListM SyscallParam)
    (p : UserParam) : Int × CListM SyscallParam :=
  if p.typ = SYSCALL_PARAM_ARRAY then
    if p.payload ≥ KERNEL_BASE then (-1, params)
    else
      let bytes := (List.range p.size).map (fun i => userMem (p.payload + i))
      (0, clist_insert_tail params (.array bytes p.size))
  else (0, clist_insert_tail params (.primitive p.payload))

/-- `syscall_param_peek` — `syscall.c` lines 395-402.  The source reads
`params->head->value` BEFORE any null check; on an empty list `head` is
NULL, and the dereference is undefined behaviour — modelled as `none`.
(The `if (!src)` guard after it can only catch a null value stored in a
live node.) -/
def syscall_param_peek (params : CListM SyscallParam) (dst : UserParam) :
    Option Int :=
  match params.items.head? with
  | none => none
  | some src => some (syscall_copy_param src dst)

/-- `syscall_param_pop` — `syscall.c` lines 415-422: `list_shift` first,
and its NULL return on an empty list is caught, yielding −1. -/
def syscall_param_pop (params : CListM SyscallParam) (dst : UserParam) :
    Int × CListM SyscallParam :=
  match clist_shift params with
  | (none, l) => (-1, l)
  | (some src, l) => (syscall_copy_param src dst, l)

/-- `struct syscall_method_data` (`syscall.h`). -/
structure syscall_method_data where
  pid : Nat
  iid : Nat
  mid : Nat
deriving Repr, DecidableEq

/-- `syscall_method` — `syscall.c` lines 435-458.  For `pid = 0` the call
is handled in-kernel; otherwise a handler thread is created in the target
process (the `ipc_handler` argument of `task_new_thread` is uninitialised
at this two-argument call site — modelled as `false`), its first TWO
argument registers are set to `{iid, mid}` (nothing writes `rdx`), the
caller's argument stack is moved into it, and the function falls through
to `return -1` — even on success. -/
def syscall_method (k : Kernel) (callerPtr : Nat)
    (d : syscall_method_data) : Int × Kernel :=
  match k.thread? callerPtr with
  | none => (-1, k)
  | some caller =>
    if d.pid = 0 then
      let (r, k', params') :=
        syscall_kernel_method k caller.procId d.iid d.mid
          caller.syscall_params
      (r, Kernel.updateThread k' callerPtr (fun t =>
        { t with syscall_params := params' }))
    else
      match task_find_process k d.pid with
      | none => (-1, k)
      | some proc =>
        match proc.syscall_callback with
        | none => (-1, k)
        | some cb =>
          let k := paging_set_current k k.kernelTables
          let (k, tptr) := task_new_thread k d.pid cb false
          let k := paging_restore k (task_find_process k caller.procId)
          let k := Kernel.updateThread k tptr (fun t =>
            { t with context :=
                { t.context with rdi := d.iid, rsi := d.mid } })
          let callerParams := match k.thread? callerPtr with
            | some t => t.syscall_params
            | none => clist_create
          let newParams := match k.thread? tptr with
            | some t => t.syscall_params
            | none => clist_create
          let (srcAfter, dstAfter) := syscall_copy_params callerParams newParams
          let k := Kernel.updateThread k tptr (fun t =>
            { t with syscall_params := dstAfter })
          let k := Kernel.updateThread k callerPtr (fun t =>
            { t with syscall_params := srcAfter })
          (-1, k)

/-- `enum syscall_type` (`syscall.h`): EXIT=0, METHOD=1, SIGNAL=2,
TARGETED_SIGNAL=3, PUSH=4, PEEK=5, POP=6. -/
inductive syscall_type where
  | SYSCALL_EXIT
  | SYSCALL_METHOD
  | SYSCALL_SIGNAL
  | SYSCALL_TARGETED_SIGNAL
  | SYSCALL_PUSH
  | SYSCALL_PEEK
  | SYSCALL_POP
deriving Repr, DecidableEq

/-- The numeric code of a syscall type (its position in the enum). -/
def syscall_type.code : syscall_type → Nat
  | .SYSCALL_EXIT => 0
  | .SYSCALL_METHOD => 1
  | .SYSCALL_SIGNAL => 2
  | .SYSCALL_TARGETED_SIGNAL => 3
  | .SYSCALL_PUSH => 4
  | .SYSCALL_PEEK => 5
  | .SYSCALL_POP => 6

/-- The payload `frame->rsi` points at, per syscall type (§6): the
matching C struct's fields. -/
inductive SyscallData where
  | methodData (d : syscall_method_data)
  | signalData (iid sid : Nat)
  | targetedSignalData (pid iid sid : Nat)
  | paramData (p : UserParam)
  | nullData
deriving Repr, DecidableEq

/-- `syscall_handler` — `syscall.c` lines 468-496.  The current thread's
parameter list is read before the switch, so a missing current thread is
undefined behaviour (outer `none`), as is `PEEK`'s null dereference on an
empty stack.  The inner `Option Int` is what the handler writes to
`frame->rax`: the EXIT path writes nothing (it marks the thread exiting
and lets `task_switch` replace the whole frame; scheduling is outside
this model).  The switch has cases only for EXIT, METHOD, PUSH, PEEK and
POP — `SYSCALL_SIGNAL` (code 2) and `SYSCALL_TARGETED_SIGNAL` (code 3)
fall through to the default, which sets `rax = -1` and touches nothing
else.  A payload shaped differently from its syscall type reinterprets
bytes in C and is not modelled: the catch-all covers the default arm. -/
def syscall_handler (k : Kernel) (callerPtr : Nat) (ty : syscall_type)
    (d : SyscallData) : Option (Option Int × Kernel) :=
  match k.thread? callerPtr with
  | none => none
  | some caller =>
    match ty, d with
    | .SYSCALL_EXIT, _ =>
      some (none, Kernel.updateThread k callerPtr (fun t =>
        { t with exiting := true }))
    | .SYSCALL_METHOD, .methodData md =>
      let (r, k') := syscall_method k callerPtr md
      some (some r, k')
    | .SYSCALL_PUSH, .paramData p =>
      let (r, params') := syscall_param_push k.userMem caller.syscall_params p
      some (some r, Kernel.updateThread k callerPtr (fun t =>
        { t with syscall_params := params' }))
    | .SYSCALL_PEEK, .paramData p =>
      match syscall_param_peek caller.syscall_params p with
      | none => none
      | some r => some (some r, k)
    | .SYSCALL_POP, .paramData p =>
      let (r, params') := syscall_param_pop caller.syscall_params p
      some (some r, Kernel.updateThread k callerPtr (fun t =>
        { t with syscall_params := params' }))
    | _, _ => some (some (-1), k)

/-- `task_exec` — `task.c` lines 517-568, step for step: resolve the
path (returning −1 untouched when it fails), delete every other thread of
the process (the C captures `n->next` before deleting, so the original
chain is walked), reset tids, recreate the IPC argument list, release the
stack (the same virtual-address `set_frame_lock` no-op as in
`task_delete_thread`) and allocate a new one, tear down and recreate the
address space, and only then run `load_elf` — whose failure therefore
returns −1 with all of those mutations already in place.  On success the
context is rebuilt at the new entry and the new tables are installed. -/
def task_exec (k : Kernel) (tptr : Nat) (path : List Nat) : Int × Kernel :=
  match fs_find_node k.mounts path with
  | none => (-1, k)
  | some node =>
    match k.thread? tptr with
    | none => (-1, k)
    | some t =>
      let pid := t.procId
      let others := match task_find_process k pid with
        | some p => p.threads.items.filter (fun x => x ≠ tptr)
        | none => []
      let k := others.foldl task_delete_thread k
      -- proc->next_tid = 1; thread->id = proc->next_tid++
      let k := Kernel.updateProc k pid (fun p => { p with next_tid := 2 })
      let k := Kernel.updateThread k tptr (fun th => { th with id := 1 })
      -- list_destroy + list_create on the argument stack
      let k := Kernel.updateThread k tptr (fun th =>
        { th with syscall_params := clist_create })
      -- set_frame_lock(thread->stack, 4, false) on the VIRTUAL base
      let k := match k.thread? tptr with
        | some th => { k with mem := (set_frame_lock k.mem th.stack
            TASK_DEFAULT_STACK_PAGES false).2 }
        | none => k
      let k := task_alloc_stack k tptr
      let k := match task_find_process k pid with
        | some p => { k with mem := task_free_address_space k.mem p.tables }
        | none => k
      let k := task_new_address_space k pid
      let procTables := match task_find_process k pid with
        | some p => p.tables
        | none => []
      let res := load_elf k.mem k.kernelTables node procTables
      let k := { k with mem := res.mem, kernelTables := res.tables }
      let k := Kernel.updateProc k pid (fun p =>
        { p with tables := res.procTables,
                 image := match res.image with
                   | some im => some im
                   | none => p.image })
      if ¬ res.ret then (-1, k)
      else
        let entry := match task_find_process k pid with
          | some p => match p.image with
            | some im => im.entry
            | none => 0
          | none => 0
        let k := Kernel.updateThread k tptr (fun th =>
          { th with context :=
              { rip := entry, rsp := th.stack + TASK_DEFAULT_STACK_SIZE,
                rbp := th.stack + TASK_DEFAULT_STACK_SIZE,
                cs := 0x2B, ss := 0x23, rflags := 0x202 } })
        let k := match task_find_process k pid with
          | some p => paging_set_current k p.tables
          | none => k
        (0, k)

/-! ### Concrete kernel states for claims C2-C5 and C9 -/

/-- A minimal thread record (tid 1 of process `pid`, empty IPC stack). -/
def thread0 (pid : Nat) : Thread :=
  { id := 1, procId := pid, exiting := false, ipc_handler := false,
    stack := 0, syscall_params := clist_create, context := {} }

/-- A process record with the given id, IPC entry point and thread
pointers. -/
def procC (pid : Nat) (cb : Option Nat) (threads : List Nat) : Process :=
  { id := pid, image := none, tables := [], syscall_callback := cb,
    threads := ⟨threads, threads.length⟩, next_tid := 2, parentId := none,
    children := clist_create }

/-- The C2/C9 kernel: sender process 1 (thread pointer 1, empty argument
stack) and two listener processes 2 and 3 with registered IPC entry
points. -/
def kC2 : Kernel :=
  { mem := memW, kernelTables := [], currentTables := [],
    procs := [procC 1 none [1], procC 2 (some 0x5000) [],
              procC 3 (some 0x6000) []],
    task_queue := clist_create, threadStore := [(1, thread0 1)], nextPtr := 2,
    mounts := [], syscall_services := [syscall_kernel], serialOut := [],
    userMem := fun _ => 0 }

/-- C2 (counterexample).  With two listeners registered, a SIGNAL syscall
(code 2, payload `{iid=5, sid=9}`) from the sender returns rax = −1 and
leaves the kernel state — in particular every process's threads and every
argument stack — exactly as it was; the claim demands two new handler
threads and a 0 return. -/
theorem syscall_signal_two_listeners_not_delivered :
    syscall_handler kC2 1 .SYSCALL_SIGNAL (.signalData 5 9) =
      some (some (-1), kC2) ∧
    syscall_type.SYSCALL_SIGNAL.code = 2 ∧
    (kC2.procs.filter (fun p => p.syscall_callback.isSome)).length = 2 ∧
    ((kC2.thread? 1).map (fun t => t.syscall_params.items)) = some [] :=
  ⟨rfl, rfl, by decide, by decide⟩

/-- C2 (amended).  The SIGNAL syscall is not implemented: for every kernel
state and every payload, `syscall_handler` falls through the switch to the
default case, writes −1 to rax and changes nothing. -/
theorem syscall_signal_unimplemented (k : Kernel) (callerPtr : Nat)
    (c : Thread) (hc : k.thread? callerPtr = some c) (iid sid : Nat) :
    syscall_handler k callerPtr .SYSCALL_SIGNAL (.signalData iid sid) =
      some (some (-1), k) := by
  unfold syscall_handler
  rw [hc]

/-- C2 (witness): the amended theorem at the concrete two-listener
state. -/
theorem syscall_signal_unimplemented_witness :
    syscall_handler kC2 1 .SYSCALL_SIGNAL (.signalData 5 9) =
      some (some (-1), kC2) :=
  syscall_signal_unimplemented kC2 1 (thread0 1) rfl 5 9

/-- A user-space destination record for PEEK/POP. -/
def dstW : UserParam := { typ := 1, size := 0, payload := 0x1000 }

/-- C9 (code bug).  On an empty IPC argument stack, `syscall_param_peek`
dereferences `params->head` — NULL — before any check (undefined
behaviour, the model's `none`), while `syscall_param_pop`'s `list_shift`
path returns −1 safely; at the handler level, PEEK on the empty-stacked
thread of `kC2` is the same null dereference and POP returns −1. -/
theorem syscall_param_peek_empty_null_deref :
    syscall_param_peek (clist_create : CListM SyscallParam) dstW = none ∧
    syscall_param_pop (clist_create : CListM SyscallParam) dstW =
      (-1, clist_create) ∧
    syscall_handler kC2 1 .SYSCALL_PEEK (.paramData dstW) = none ∧
    (syscall_handler kC2 1 .SYSCALL_POP (.paramData dstW)).map
      (fun r => r.1) = some (some (-1)) :=
  ⟨by decide, by decide, rfl, rfl⟩

/-- The C3 kernel: caller thread pointer 1 in process 7 with one pushed
primitive argument; target process 9 with registered entry point
`0x5000`. -/
def kC3 : Kernel :=
  { mem := memW, kernelTables := [], currentTables := [],
    procs := [procC 7 none [1], procC 9 (some 0x5000) []],
    task_queue := clist_create,
    threadStore :=
      [(1, { thread0 7 with syscall_params := ⟨[.primitive 42], 1⟩ })],
    nextPtr := 2, mounts := [], syscall_services := [syscall_kernel],
    serialOut := [], userMem := fun _ => 0 }

/-- C3 (counterexample).  A METHOD call from process 7 to the registered
process 9 creates the handler thread (pointer 2, entry 0x5000, rdi = iid =
5, rsi = mid = 3) and moves the caller's stack into it — but returns −1,
not 0 (the function falls through to `return -1` even on success), and the
third argument register rdx is never written (it stays at its malloc
value, 0 in the model), not the caller's pid 7. -/
theorem syscall_method_returns_error_and_no_caller_pid :
    (syscall_method kC3 1 ⟨9, 5, 3⟩).1 = -1 ∧
    ((syscall_method kC3 1 ⟨9, 5, 3⟩).2.thread? 2).map
      (fun t => (t.context.rip, t.context.rdi, t.context.rsi,
                 t.context.rdx)) = some (0x5000, 5, 3, 0) ∧
    ((syscall_method kC3 1 ⟨9, 5, 3⟩).2.thread? 1).map
      (fun t => t.syscall_params.items) = some [] ∧
    ((syscall_method kC3 1 ⟨9, 5, 3⟩).2.thread? 2).map
      (fun t => t.syscall_params.items) = some [.primitive 42] := by
  refine ⟨by decide, by decide, by decide, by decide⟩

/-- The C5 base kernel over the scenario-A allocator (bits 0-8 locked
after init), with one process and no threads yet. -/
def kA : Kernel :=
  { mem := memA, kernelTables := [], currentTables := [],
    procs := [{ procC 1 none [] with next_tid := 1 }],
    task_queue := clist_create, threadStore := [],
    nextPtr := 1, mounts := [], syscall_services := [syscall_kernel],
    serialOut := [], userMem := fun _ => 0 }

/-- `kA` after `task_new_thread`: thread pointer 1, tid 1, whose user
stack got physical frames `0x9000..0xCFFF` (relative frames 8-11) and
whose `stack` field holds the VIRTUAL base
`KERNEL_BASE - TASK_DEFAULT_STACK_SIZE`. -/
def kA1 : Kernel := (task_new_thread kA 1 0x400000 false).1

/-- `kA1` after `task_delete_thread` on that thread. -/
def kA2 : Kernel := task_delete_thread kA1 1

/-- C5 (code bug).  `task_delete_thread` removes the thread from the ready
queue and from its process's thread list, but the "unlock the stack
frames" call passes `thread->stack` — the VIRTUAL base, far above the
PFA's physical range — so `set_frame_lock` rejects it with −1 and the
bitmap is left untouched: the physical frames 8-11 backing the stack stay
locked (the whole bitmap is byte-for-byte what it was before the
delete). -/
theorem task_delete_thread_leaks_stack_frames :
    ((kA1.thread? 1).map (fun t => t.stack)) =
      some (KERNEL_BASE - TASK_DEFAULT_STACK_SIZE) ∧
    (set_frame_lock kA1.mem (KERNEL_BASE - TASK_DEFAULT_STACK_SIZE)
      TASK_DEFAULT_STACK_PAGES false).1 = -1 ∧
    kA2.task_queue.items = [] ∧
    (task_find_process kA2 1).map (fun p => p.threads.items) = some [] ∧
    (frameBit kA2.mem 8 = true ∧ frameBit kA2.mem 9 = true ∧
      frameBit kA2.mem 10 = true ∧ frameBit kA2.mem 11 = true) ∧
    (∀ b : Fin 32, kA2.mem.bitmapData b.val = kA1.mem.bitmapData b.val) := by
  refine ⟨by decide, by decide, by decide, by decide, by decide, by decide⟩

/-! ### Claim C4 — `task_exec` error paths -/

/-- A 64-byte non-ELF file (all zeros: the magic check fails). -/
def nonElfBytes : List Nat := List.replicate 64 0

/-- The C4 RAMFS: one regular file `prog` holding the non-ELF bytes. -/
def rootC4 : RamfsNode :=
  .mk [] fs_node_type.DIRECTORY
    [.mk (strBytes "prog") fs_node_type.FILE [] nonElfBytes 64] [] 0

/-- The C4 kernel: process 1 with two threads (pointers 1 and 2); the
filesystem carries `/prog`. -/
def kC4 : Kernel :=
  { mem := memW, kernelTables := [], currentTables := [],
    procs := [{ procC 1 none [1, 2] with next_tid := 3 }],
    task_queue := ⟨[1, 2], 2⟩,
    threadStore := [(1, thread0 1), (2, { thread0 1 with id := 2 })],
    nextPtr := 3, mounts := [{ path := [47], root := rootC4 }],
    syscall_services := [syscall_kernel], serialOut := [],
    userMem := fun _ => 0 }

/-- C4 (counterexample).  `task_exec` on a path that exists but holds an
invalid ELF returns −1 — but only after mutating state: process 1's other
thread (pointer 2) has already been deleted from its thread list and the
ready queue by the time `load_elf` rejects the image, so the state is not
the same as before the failed call. -/
theorem task_exec_invalid_elf_mutates_state :
    (task_exec kC4 1 (strBytes "/prog")).1 = -1 ∧
    (task_find_process (task_exec kC4 1 (strBytes "/prog")).2 1).map
      (fun p => p.threads.items) = some [1] ∧
    (task_find_process kC4 1).map (fun p => p.threads.items) =
      some [1, 2] ∧
    (task_exec kC4 1 (strBytes "/prog")).2.task_queue.items = [1] ∧
    ((task_exec kC4 1 (strBytes "/prog")).2.thread? 2) = none := by
  refine ⟨by decide, by decide, by decide, by decide, by decide⟩

/-- C4 (amended).  Only the not-found path is mutation-free: when the
path resolves to no file, `task_exec` returns −1 with the kernel state
untouched. -/
theorem task_exec_notfound_no_mutation (k : Kernel) (tptr : Nat)
    (path : List Nat) (hnf : fs_find_node k.mounts path = none) :
    task_exec k tptr path = (-1, k) := by
  unfold task_exec
  rw [hnf]

/-- C4 (witness): the amended theorem on a kernel with no mounts, where
every lookup fails. -/
theorem task_exec_notfound_no_mutation_witness :
    task_exec kC2 1 (strBytes "/prog") = (-1, kC2) :=
  task_exec_notfound_no_mutation kC2 1 (strBytes "/prog") rfl

/-! ### Lemmas for the METHOD-call theorem (claim C3) -/

/-- `updateFirst` keeps the list's length. -/
lemma length_updateFirst {α : Type} (p : α → Bool) (f : α → α)
    (l : List α) : (updateFirst p f l).length = l.length := by
  induction l with
  | nil => rfl
  | cons a l ih =>
    simp only [updateFirst]
    split <;> simp [ih]

/-- `find?` after `updateFirst` on a keyed list: looking up the updated
key sees the update, any other key is untouched (the update function must
keep the key). -/
lemma find?_updateFirst_key {α : Type} (key : α → Nat) (f : α → α)
    (hkey : ∀ a, key (f a) = key a) (t x : Nat) (l : List α) :
    List.find? (fun a => key a = x) (updateFirst (fun a => key a = t) f l) =
      if x = t then (List.find? (fun a => key a = x) l).map f
      else List.find? (fun a => key a = x) l := by
  induction l with
  | nil => simp [updateFirst]
  | cons a l ih =>
    simp only [updateFirst]
    by_cases hat : key a = t
    · rw [if_pos (by simp [hat])]
      by_cases hax : key a = x
      · rw [List.find?_cons_of_pos _ (by simp [hkey, hax]),
            List.find?_cons_of_pos _ (by simp [hax]),
            if_pos (by omega)]
        rfl
      · rw [List.find?_cons_of_neg _ (by simp [hkey, hax]),
            List.find?_cons_of_neg _ (by simp [hax]),
            if_neg (by omega)]
    · rw [if_neg (by simp [hat])]
      by_cases hax : key a = x
      · rw [List.find?_cons_of_pos _ (by simp [hax]),
            List.find?_cons_of_pos _ (by simp [hax]),
            if_neg (by omega)]
      · rw [List.find?_cons_of_neg _ (by simp [hax]),
            List.find?_cons_of_neg _ (by simp [hax]), ih]

/-- Looking up a thread after updating one. -/
lemma thread?_updateThread (k : Kernel) (t x : Nat) (f : Thread → Thread) :
    (k.updateThread t f).thread? x =
      if x = t then (k.thread? x).map f else k.thread? x := by
  unfold Kernel.thread? Kernel.updateThread
  simp only []
  rw [find?_updateFirst_key (fun (p : Nat × Thread) => p.1)
    (fun p => (p.1, f p.2)) (fun a => rfl) t x k.threadStore]
  by_cases hx : x = t
  · rw [if_pos hx, if_pos hx]
    cases List.find? (fun p => p.1 = x) k.threadStore <;> rfl
  · rw [if_neg hx, if_neg hx]

/-- Looking up a process after updating one (the update keeps ids). -/
lemma find_proc_updateProc (k : Kernel) (pid x : Nat)
    (f : Process → Process) (hid : ∀ p, (f p).id = p.id) :
    task_find_process (k.updateProc pid f) x =
      if x = pid then (task_find_process k x).map f
      else task_find_process k x := by
  unfold task_find_process Kernel.updateProc
  exact find?_updateFirst_key (fun p => p.id) f hid pid x k.procs

/-- `updateProc` does not touch the thread store. -/
lemma thread?_updateProc (k : Kernel) (pid : Nat) (f : Process → Process)
    (x : Nat) : (k.updateProc pid f).thread? x = k.thread? x := rfl

/-- `paging_set_current` does not touch the thread store. -/
lemma thread?_set_current (k : Kernel) (a : AddrSpace) (x : Nat) :
    (paging_set_current k a).thread? x = k.thread? x := rfl

/-- Replacing the PFA leaves thread lookups alone. -/
lemma thread?_set_mem (k : Kernel) (m : memory) (x : Nat) :
    ({ k with mem := m } : Kernel).thread? x = k.thread? x := rfl

/-- `updateThread` does not touch the process list. -/
lemma find_proc_updateThread (k : Kernel) (t : Nat) (f : Thread → Thread)
    (x : Nat) :
    task_find_process (k.updateThread t f) x = task_find_process k x := rfl

/-- `paging_set_current` does not touch the process list. -/
lemma find_proc_set_current (k : Kernel) (a : AddrSpace) (x : Nat) :
    task_find_process (paging_set_current k a) x = task_find_process k x :=
  rfl

/-- Replacing the PFA leaves process lookups alone. -/
lemma find_proc_set_mem (k : Kernel) (m : memory) (x : Nat) :
    task_find_process ({ k with mem := m } : Kernel) x =
      task_find_process k x := rfl

/-- `updateThread` keeps the ready queue. -/
lemma queue_updateThread (k : Kernel) (t : Nat) (f : Thread → Thread) :
    (k.updateThread t f).task_queue = k.task_queue := rfl

/-- `updateProc` keeps the ready queue. -/
lemma queue_updateProc (k : Kernel) (pid : Nat) (f : Process → Process) :
    (k.updateProc pid f).task_queue = k.task_queue := rfl

/-- `paging_set_current` keeps the ready queue. -/
lemma queue_set_current (k : Kernel) (a : AddrSpace) :
    (paging_set_current k a).task_queue = k.task_queue := rfl

/-- `updateThread` keeps the store's length. -/
lemma storeLen_updateThread (k : Kernel) (t : Nat) (f : Thread → Thread) :
    (k.updateThread t f).threadStore.length = k.threadStore.length := by
  unfold Kernel.updateThread
  simp [length_updateFirst]

/-- Replacing the PFA leaves the bump pointer alone. -/
lemma nextPtr_set_mem (k : Kernel) (m : memory) :
    ({ k with mem := m } : Kernel).nextPtr = k.nextPtr := rfl

/-- `updateProc` keeps the thread store. -/
lemma storeLen_updateProc (k : Kernel) (pid : Nat) (f : Process → Process) :
    (k.updateProc pid f).threadStore.length = k.threadStore.length := rfl

/-- `paging_set_current` keeps the thread store. -/
lemma storeLen_set_current (k : Kernel) (a : AddrSpace) :
    (paging_set_current k a).threadStore.length =
      k.threadStore.length := rfl

/-- `paging_set_current` keeps the bump pointer. -/
lemma nextPtr_set_current (k : Kernel) (a : AddrSpace) :
    (paging_set_current k a).nextPtr = k.nextPtr := rfl

/-- `paging_restore` only touches CR3: thread lookups are unchanged. -/
lemma thread?_restore (k : Kernel) (o : Option Process) (x : Nat) :
    (paging_restore k o).thread? x = k.thread? x := by
  cases o <;> rfl

/-- `paging_restore` only touches CR3: process lookups are unchanged. -/
lemma find_proc_restore (k : Kernel) (o : Option Process) (x : Nat) :
    task_find_process (paging_restore k o) x = task_find_process k x := by
  cases o <;> rfl

/-- `paging_restore` keeps the ready queue. -/
lemma queue_restore (k : Kernel) (o : Option Process) :
    (paging_restore k o).task_queue = k.task_queue := by
  cases o <;> rfl

/-- `paging_restore` keeps the thread store. -/
lemma storeLen_restore (k : Kernel) (o : Option Process) :
    (paging_restore k o).threadStore.length = k.threadStore.length := by
  cases o <;> rfl

/-- Looking up the freshly appended thread. -/
lemma thread?_appendThread_self (k : Kernel) (tptr : Nat) (th : Thread)
    (hfresh : k.thread? tptr = none) :
    (k.appendThread tptr th).thread? tptr = some th := by
  unfold Kernel.thread? at *
  have h : List.find? (fun p => p.1 = tptr) k.threadStore = none := by
    rcases h : List.find? (fun p => p.1 = tptr) k.threadStore with _ | v
    · exact h
    · rw [h] at hfresh
      simp at hfresh
  unfold Kernel.appendThread
  simp only []
  rw [List.find?_append, h]
  simp [List.find?]

/-- Appending a thread does not shadow other pointers. -/
lemma thread?_appendThread_other (k : Kernel) (tptr : Nat) (th : Thread)
    (x : Nat) (hx : x ≠ tptr) :
    (k.appendThread tptr th).thread? x = k.thread? x := by
  unfold Kernel.thread? Kernel.appendThread
  simp only []
  rw [List.find?_append]
  have hnone : List.find? (fun p => p.1 = x) [(tptr, th)] = none := by
    simp only [List.find?]
    have h2 : (tptr = x) = False := by simp [Ne.symm hx]
    simp [h2]
  rw [hnone, Option.or_none]

/-- Appending a thread does not touch the process list. -/
lemma find_proc_appendThread (k : Kernel) (tptr : Nat) (th : Thread)
    (x : Nat) :
    task_find_process (k.appendThread tptr th) x =
      task_find_process k x := rfl

/-- Appending a thread keeps the ready queue. -/
lemma queue_appendThread (k : Kernel) (tptr : Nat) (th : Thread) :
    (k.appendThread tptr th).task_queue = k.task_queue := rfl

/-- Appending a thread grows the store by one. -/
lemma storeLen_appendThread (k : Kernel) (tptr : Nat) (th : Thread) :
    (k.appendThread tptr th).threadStore.length =
      k.threadStore.length + 1 := by
  unfold Kernel.appendThread
  simp

/-- Enqueueing does not touch the thread store. -/
lemma thread?_pushQueue (k : Kernel) (tptr x : Nat) :
    (k.pushQueue tptr).thread? x = k.thread? x := rfl

/-- Enqueueing does not touch the process list. -/
lemma find_proc_pushQueue (k : Kernel) (tptr x : Nat) :
    task_find_process (k.pushQueue tptr) x = task_find_process k x := rfl

/-- Enqueueing appends to the ready queue. -/
lemma queue_pushQueue (k : Kernel) (tptr : Nat) :
    (k.pushQueue tptr).task_queue =
      clist_insert_tail k.task_queue tptr := rfl

/-- Enqueueing keeps the store's length. -/
lemma storeLen_pushQueue (k : Kernel) (tptr : Nat) :
    (k.pushQueue tptr).threadStore.length = k.threadStore.length := rfl

/-- What `task_alloc_stack` can change: the PFA, the owner's tables, and
the thread's `stack` field — nothing else the METHOD theorem looks at
(the projection keeps each process's thread list, tid counter and IPC
entry point). -/
lemma task_alloc_stack_spec (k : Kernel) (t : Nat) :
    (∀ x, x ≠ t → (task_alloc_stack k t).thread? x = k.thread? x) ∧
    (∃ s, (task_alloc_stack k t).thread? t =
      (k.thread? t).map (fun th => { th with stack := s })) ∧
    (task_alloc_stack k t).task_queue = k.task_queue ∧
    (task_alloc_stack k t).threadStore.length = k.threadStore.length ∧
    (task_alloc_stack k t).nextPtr = k.nextPtr ∧
    (∀ pid, (task_find_process (task_alloc_stack k t) pid).map
        (fun p => (p.threads, p.next_tid, p.syscall_callback)) =
      (task_find_process k pid).map
        (fun p => (p.threads, p.next_tid, p.syscall_callback))) := by
  unfold task_alloc_stack
  rcases ht : k.thread? t with _ | t0
  · exact ⟨fun x _ => rfl, ⟨0, by rw [ht]; rfl⟩, rfl, rfl, rfl,
      fun _ => rfl⟩
  · simp only []
    by_cases hff : find_free_frames k.mem TASK_DEFAULT_STACK_PAGES = -1
    · rw [if_pos hff]
      exact ⟨fun x _ => rfl, ⟨t0.stack, by rw [ht]; rfl⟩, rfl, rfl, rfl,
        fun _ => rfl⟩
    · rw [if_neg hff]
      by_cases hr : (set_frame_lock k.mem
          (find_free_frames k.mem TASK_DEFAULT_STACK_PAGES).toNat
          TASK_DEFAULT_STACK_PAGES true).1 < 0
      · rw [if_pos hr]
        exact ⟨fun x _ => rfl, ⟨t0.stack, by rw [thread?_set_mem, ht]; rfl⟩,
          rfl, rfl, rfl, fun _ => rfl⟩
      · rw [if_neg hr]
        refine ⟨?_, ?_, rfl, ?_, rfl, ?_⟩
        · intro x hx
          rw [thread?_updateThread, if_neg hx, thread?_updateProc,
            thread?_set_mem]
        · refine ⟨KERNEL_BASE - TASK_DEFAULT_STACK_SIZE * t0.id, ?_⟩
          rw [thread?_updateThread, if_pos rfl, thread?_updateProc,
            thread?_set_mem, ht]
        · rw [storeLen_updateThread]
          rfl
        · intro pid
          rw [find_proc_updateThread, find_proc_updateProc _ _ _ _
            (by intro p; rfl), find_proc_set_mem]
          split
          · cases task_find_process k pid <;> rfl
          · rfl

/-- What `task_new_thread` does for an existing target process and a
fresh bump pointer: a thread appears behind the old bump pointer with the
process's next tid, the requested entry point and ipc flag, and an empty
argument stack; no other pointer changes; the pointer is enqueued; the
store grows by one; the target's thread list gains exactly the pointer,
its tid counter steps, and its IPC entry point stays. -/
lemma task_new_thread_spec (k : Kernel) (pid entry : Nat) (ih : Bool)
    (proc : Process) (hproc : task_find_process k pid = some proc)
    (hfresh : k.thread? k.nextPtr = none) :
    (task_new_thread k pid entry ih).2 = k.nextPtr ∧
    (∃ s, (task_new_thread k pid entry ih).1.thread? k.nextPtr = some
      { id := proc.next_tid, procId := pid, exiting := false,
        ipc_handler := ih, stack := s, syscall_params := clist_create,
        context := { rip := entry, rsp := s + TASK_DEFAULT_STACK_SIZE,
                     rbp := s + TASK_DEFAULT_STACK_SIZE, cs := 0x2B,
                     ss := 0x23, rflags := 0x202 } }) ∧
    (∀ x, x ≠ k.nextPtr →
      (task_new_thread k pid entry ih).1.thread? x = k.thread? x) ∧
    (task_new_thread k pid entry ih).1.task_queue =
      clist_insert_tail k.task_queue k.nextPtr ∧
    (task_new_thread k pid entry ih).1.threadStore.length =
      k.threadStore.length + 1 ∧
    (task_find_process (task_new_thread k pid entry ih).1 pid).map
        (fun p => (p.threads, p.next_tid, p.syscall_callback)) =
      some (clist_insert_tail proc.threads k.nextPtr, proc.next_tid + 1,
        proc.syscall_callback) := by
  unfold task_new_thread
  rw [hproc]
  simp only []
  set k1 := Kernel.updateProc k pid (fun p =>
    { p with next_tid := p.next_tid + 1 }) with hk1
  set th0 : Thread :=
    Thread.mk proc.next_tid pid false ih 0 clist_create {} with hth0
  set A := k1.appendThread k.nextPtr th0 with hA
  set T := task_alloc_stack A k.nextPtr with hT
  have hAfresh : A.thread? k.nextPtr = some th0 := by
    rw [hA]
    refine thread?_appendThread_self _ _ _ ?_
    rw [hk1, thread?_updateProc]
    exact hfresh
  obtain ⟨hO, ⟨s, hs⟩, hQ, hL, hN, hP3⟩ := task_alloc_stack_spec A k.nextPtr
  rw [← hT] at hO hs hQ hL hN hP3
  have hs' : T.thread? k.nextPtr = some { th0 with stack := s } := by
    rw [hs, hAfresh]
    rfl
  rw [hs']
  simp only []
  refine ⟨trivial, ⟨s, ?_⟩, ?_, ?_, ?_, ?_⟩
  · rw [thread?_pushQueue, thread?_updateProc, thread?_updateThread,
      if_pos rfl, hs', hth0]
    rfl
  · intro x hx
    rw [thread?_pushQueue, thread?_updateProc, thread?_updateThread,
      if_neg hx, hO x hx, hA, thread?_appendThread_other _ _ _ _ hx,
      hk1, thread?_updateProc]
  · rw [queue_pushQueue, queue_updateProc, queue_updateThread, hQ, hA,
      queue_appendThread, hk1, queue_updateProc]
  · rw [storeLen_pushQueue, storeLen_updateProc, storeLen_updateThread,
      hL, hA, storeLen_appendThread, hk1, storeLen_updateProc]
  · have hcomm : ∀ (o : Option Process),
        (o.map (fun p =>
          { p with threads := clist_insert_tail p.threads
                                k.nextPtr })).map
            (fun p => (p.threads, p.next_tid, p.syscall_callback)) =
        (o.map (fun p =>
          (p.threads, p.next_tid, p.syscall_callback))).map
            (fun q => (clist_insert_tail q.1 k.nextPtr, q.2)) := by
      intro o
      cases o <;> rfl
    rw [find_proc_pushQueue, find_proc_updateProc _ _ _ _
      (by intro p; rfl), if_pos rfl, find_proc_updateThread, hcomm,
      hP3, hA, find_proc_appendThread, hk1, find_proc_updateProc _ _ _ _
      (by intro p; rfl), if_pos rfl, hproc]
    rfl


/-- C3.  For every METHOD call with a non-zero target pid naming an
existing process with a registered IPC entry point (and a live caller and
fresh bump pointer), the kernel creates exactly one new thread in that
process: it sits behind the old bump pointer, its entry point is the
registered callback, its first TWO argument registers hold `{iid, mid}`
(`rdx` keeps its malloc value — the caller's pid is never written), the
caller's entire argument stack is MOVED into it (the caller's ends
empty), the new pointer is enqueued, the target's thread list grows by
exactly that pointer — and the call returns −1, not 0. -/
theorem syscall_method_moves_stack_returns_error
    (k : Kernel) (callerPtr : Nat) (d : syscall_method_data)
    (caller : Thread) (proc : Process) (cb : Nat)
    (hcaller : k.thread? callerPtr = some caller)
    (hpid : d.pid ≠ 0)
    (hproc : task_find_process k d.pid = some proc)
    (hcb : proc.syscall_callback = some cb)
    (hfresh : k.thread? k.nextPtr = none) :
    (syscall_method k callerPtr d).1 = -1 ∧
    (∃ s, (syscall_method k callerPtr d).2.thread? k.nextPtr = some
      { id := proc.next_tid, procId := d.pid, exiting := false,
        ipc_handler := false, stack := s,
        syscall_params := ⟨caller.syscall_params.items,
                           caller.syscall_params.items.length⟩,
        context := { rip := cb, rsp := s + TASK_DEFAULT_STACK_SIZE,
                     rbp := s + TASK_DEFAULT_STACK_SIZE, rdi := d.iid,
                     rsi := d.mid, cs := 0x2B, ss := 0x23,
                     rflags := 0x202 } }) ∧
    (syscall_method k callerPtr d).2.thread? callerPtr = some
      { caller with syscall_params :=
          ⟨[], caller.syscall_params.length -
               caller.syscall_params.items.length⟩ } ∧
    (syscall_method k callerPtr d).2.task_queue =
      clist_insert_tail k.task_queue k.nextPtr ∧
    (syscall_method k callerPtr d).2.threadStore.length =
      k.threadStore.length + 1 ∧
    (task_find_process (syscall_method k callerPtr d).2 d.pid).map
        (fun p => (p.threads, p.next_tid, p.syscall_callback)) =
      some (clist_insert_tail proc.threads k.nextPtr, proc.next_tid + 1,
        proc.syscall_callback) := by
  have hne : callerPtr ≠ k.nextPtr := by
    intro he
    rw [he, hfresh] at hcaller
    exact Option.noConfusion hcaller
  obtain ⟨hTp, ⟨s, hTh⟩, hTO, hTQ, hTL, hTF⟩ :=
    task_new_thread_spec (paging_set_current k k.kernelTables) d.pid cb
      false proc (by rw [find_proc_set_current]; exact hproc)
      (by rw [nextPtr_set_current, thread?_set_current]; exact hfresh)
  simp only [nextPtr_set_current, thread?_set_current, queue_set_current,
    storeLen_set_current] at hTp hTh hTO hTQ hTL hTF
  unfold syscall_method
  rw [hcaller]
  simp only []
  rw [if_neg hpid, hproc]
  simp only []
  rw [hcb]
  simp only []
  rcases hP : task_new_thread (paging_set_current k k.kernelTables) d.pid
      cb false with ⟨k2, tptr⟩
  rw [hP] at hTp hTh hTO hTQ hTL hTF
  simp only [] at hTp hTh hTO hTQ hTL hTF
  subst hTp
  simp only []
  set k3 := paging_restore k2 (task_find_process k2 caller.procId)
    with hk3
  set k4 := Kernel.updateThread k3 k.nextPtr (fun t =>
    { t with context := { t.context with rdi := d.iid, rsi := d.mid } })
    with hk4
  have h4c : k4.thread? callerPtr = some caller := by
    rw [hk4, thread?_updateThread, if_neg hne, hk3, thread?_restore,
      hTO callerPtr hne, hcaller]
  have h4t : k4.thread? k.nextPtr = some
      { id := proc.next_tid, procId := d.pid, exiting := false,
        ipc_handler := false, stack := s, syscall_params := clist_create,
        context := { rip := cb, rsp := s + TASK_DEFAULT_STACK_SIZE,
                     rbp := s + TASK_DEFAULT_STACK_SIZE, rdi := d.iid,
                     rsi := d.mid, cs := 0x2B, ss := 0x23,
                     rflags := 0x202 } } := by
    rw [hk4, thread?_updateThread, if_pos rfl, hk3, thread?_restore, hTh]
    rfl
  rw [h4c, h4t]
  simp only [syscall_copy_params, clist_create, List.nil_append,
    Nat.zero_add]
  refine ⟨trivial, ⟨s, ?_⟩, ?_, ?_, ?_, ?_⟩
  · rw [thread?_updateThread, if_neg (Ne.symm hne), thread?_updateThread,
      if_pos rfl, h4t]
    rfl
  · rw [thread?_updateThread, if_pos rfl, thread?_updateThread,
      if_neg hne, h4c]
    rfl
  · rw [queue_updateThread, queue_updateThread, hk4, queue_updateThread,
      hk3, queue_restore, hTQ]
  · rw [storeLen_updateThread, storeLen_updateThread, hk4,
      storeLen_updateThread, hk3, storeLen_restore, hTL]
  · rw [find_proc_updateThread, find_proc_updateThread, hk4,
      find_proc_updateThread, hk3, find_proc_restore, hTF, hcb]


/-- C3 (witness): the METHOD theorem applied at the concrete kernel
`kC3` — process 7's thread 1 (argument stack `[primitive 42]`) calls
`{target_pid 9, iid 5, mid 3}`; process 9 has entry point `0x5000`. -/
theorem syscall_method_moves_stack_returns_error_witness :
    (syscall_method kC3 1 ⟨9, 5, 3⟩).1 = -1 ∧
    (∃ s, (syscall_method kC3 1 ⟨9, 5, 3⟩).2.thread? 2 = some
      { id := 2, procId := 9, exiting := false, ipc_handler := false,
        stack := s, syscall_params := ⟨[.primitive 42], 1⟩,
        context := { rip := 0x5000, rsp := s + TASK_DEFAULT_STACK_SIZE,
                     rbp := s + TASK_DEFAULT_STACK_SIZE, rdi := 5,
                     rsi := 3, cs := 0x2B, ss := 0x23,
                     rflags := 0x202 } }) ∧
    (syscall_method kC3 1 ⟨9, 5, 3⟩).2.thread? 1 = some
      { thread0 7 with syscall_params := ⟨[], 0⟩ } ∧
    (syscall_method kC3 1 ⟨9, 5, 3⟩).2.task_queue = ⟨[2], 1⟩ ∧
    (syscall_method kC3 1 ⟨9, 5, 3⟩).2.threadStore.length = 2 ∧
    (task_find_process (syscall_method kC3 1 ⟨9, 5, 3⟩).2 9).map
        (fun p => (p.threads, p.next_tid, p.syscall_callback)) =
      some (⟨[2], 1⟩, 3, some 0x5000) :=
  syscall_method_moves_stack_returns_error kC3 1 ⟨9, 5, 3⟩
    { thread0 7 with syscall_params := ⟨[.primitive 42], 1⟩ }
    (procC 9 (some 0x5000) []) 0x5000 rfl (by decide) rfl rfl rfl

end ErikKernel